import Mathlib

/-!
# CSerialPort

A shallow embedding of `SerialPort.cpp` / `SerialPort.h` (class `CSerialPort`).

Conventions of the embedding

* The member variables of the class are the fields of `Session`, under their
  source names.  A `HANDLE` / pointer is an `Option`: `none` is
  `INVALID_HANDLE_VALUE` for `m_hComm` and `NULL` for the others.
* `int` is `Int` wrapped by `toInt32`, `DWORD` / `UINT` / `unsigned long` is
  `Nat` wrapped by `% 4294967296` (the code is Win32 only, `unsigned long` has
  32 bits there).
* `assert` is modelled as compiled in: a failed assertion ends the run with
  `Fault.assertion line`, `line` being the source line of the `assert`.
  The asserts are the only checks `Write` performs.
* Results of operating-system calls are parameters (`OpenEnv`, `WriteResult`,
  `ReadResult`, `ErrInfo`).
* Everything observable the code does (bytes handed to `WriteFile`, calls of
  `ReadFile`, messages posted to the owner, message boxes) is appended to a
  chronological trace of `Event`s.
* The worker thread is modelled at the granularity of one pass through the
  loop body of `CommThread`; the blocking waits of `Write` and `Close` are not
  executed, the model continues at the state in which they end.
-/

namespace CSerialPort

/-! ## Constants -/

/-- From `SerialPort.h`, line 18. -/
def SERIAL_PORT_MAX : Nat := 256

/-- Win32 `MAX_PATH`. -/
def MAX_PATH : Nat := 260

/-- Win32 `EV_RXCHAR`. -/
def EV_RXCHAR : Nat := 1

/-- Win32 `EV_TXEMPTY`. -/
def EV_TXEMPTY : Nat := 4

/-- Win32 `ERROR_SUCCESS`. -/
def ERROR_SUCCESS : Nat := 0

/-- Win32 `ERROR_ACCESS_DENIED`. -/
def ERROR_ACCESS_DENIED : Nat := 5

/-- Win32 `ONESTOPBIT`: the `DCB.StopBits` code selecting one stop bit. -/
def ONESTOPBIT : Nat := 0

/-- Win32 `ONE5STOPBITS`: the `DCB.StopBits` code selecting 1.5 stop bits. -/
def ONE5STOPBITS : Nat := 1

/-- Win32 `TWOSTOPBITS`: the `DCB.StopBits` code selecting two stop bits. -/
def TWOSTOPBITS : Nat := 2

/-- Win32 `RTS_CONTROL_DISABLE`. -/
def RTS_CONTROL_DISABLE : Nat := 0

/-- Win32 `DTR_CONTROL_DISABLE`. -/
def DTR_CONTROL_DISABLE : Nat := 0

/-- Twice the number of stop bits a `DCB.StopBits` code selects on the line
(1, 1.5 and 2 stop bits for the codes 0, 1 and 2). -/
def stopBitsTimesTwo (code : Nat) : Option Nat :=
  if code = ONESTOPBIT then some 2
  else if code = ONE5STOPBITS then some 3
  else if code = TWOSTOPBITS then some 4
  else none

/-! ## Machine integers -/

/-- Conversion to a 32 bit unsigned value (`DWORD`, `UINT`, `unsigned long`). -/
def toUInt32 (x : Int) : Nat := (x % 4294967296).toNat

/-- Conversion to a 32 bit two's complement `int`. -/
def toInt32 (x : Int) : Int := (x + 2147483648) % 4294967296 - 2147483648

/-- The value of `(UINT)EOF`, `EOF` being `-1`. -/
def EOF_UINT : Nat := toUInt32 (-1)

/-! ## Data model -/

/-- The fields of the Win32 `DCB` that `Open` writes. -/
structure DCB where
  BaudRate : Nat
  Parity : Nat
  ByteSize : Nat
  StopBits : Nat
  fOutxCtsFlow : Bool
  fRtsControl : Nat
  fOutxDsrFlow : Bool
  fDtrControl : Nat
  fBinary : Bool
  fDsrSensitivity : Bool
  fTXContinueOnXoff : Bool
  fOutX : Bool
  fInX : Bool
  fErrorChar : Bool
  fNull : Bool
  fAbortOnError : Bool
deriving DecidableEq, Repr

/-- Win32 `COMMTIMEOUTS`. -/
structure COMMTIMEOUTS where
  ReadIntervalTimeout : Nat
  ReadTotalTimeoutMultiplier : Nat
  ReadTotalTimeoutConstant : Nat
  WriteTotalTimeoutMultiplier : Nat
  WriteTotalTimeoutConstant : Nat
deriving DecidableEq, Repr

/-- The member variables of `CSerialPort` (`SerialPort.h`, lines 54-67; the
critical section and the enumeration array `m_nComArray` carry no state the
modelled functions read). `m_szWriteBuffer` holds the bytes of the allocated
array, its length is the allocated size. -/
structure Session where
  m_Thread : Option Nat
  m_hComm : Option Nat
  m_CommTimeouts : COMMTIMEOUTS
  m_dcb : DCB
  m_pOwner : Option Nat
  m_bThreadAlive : Bool
  m_bUserRequestClose : Bool
  m_nPortNr : Nat
  m_dwCommEvents : Nat
  m_nWriteBufferSize : Nat
  m_szWriteBuffer : Option (List Nat)
  m_nWriteSize : Int
deriving DecidableEq, Repr

/-- Ways a run ends other than by returning. -/
inductive Fault where
  /-- A failed `assert` at the given line of `SerialPort.cpp`. -/
  | assertion (line : Nat)
  /-- Integer division by zero. -/
  | divideByZero
  /-- A memory access outside the allocated object or through `NULL`. -/
  | accessViolation
deriving DecidableEq, Repr

/-- The constructor, lines 21-30: it initialises six members and leaves the
others as they are in the raw object `raw`. -/
def CSerialPort_ctor (raw : Session) : Session :=
  { raw with
    m_hComm := none
    m_szWriteBuffer := none
    m_bThreadAlive := false
    m_bUserRequestClose := false
    m_nWriteSize := 0
    m_Thread := none }

/-- A raw object with every member zero. -/
def zeroDCB : DCB :=
  { BaudRate := 0, Parity := 0, ByteSize := 0, StopBits := 0, fOutxCtsFlow := false,
    fRtsControl := 0, fOutxDsrFlow := false, fDtrControl := 0, fBinary := false,
    fDsrSensitivity := false, fTXContinueOnXoff := false, fOutX := false, fInX := false,
    fErrorChar := false, fNull := false, fAbortOnError := false }

/-- A raw object with every member zero. -/
def zeroSession : Session :=
  { m_Thread := none, m_hComm := none,
    m_CommTimeouts := { ReadIntervalTimeout := 0, ReadTotalTimeoutMultiplier := 0,
                        ReadTotalTimeoutConstant := 0, WriteTotalTimeoutMultiplier := 0,
                        WriteTotalTimeoutConstant := 0 },
    m_dcb := zeroDCB, m_pOwner := none, m_bThreadAlive := false,
    m_bUserRequestClose := false, m_nPortNr := 0, m_dwCommEvents := 0,
    m_nWriteBufferSize := 0, m_szWriteBuffer := none, m_nWriteSize := 0 }

/-- `IsOpen`, lines 352-355. -/
def IsOpen (s : Session) : Bool := s.m_hComm.isSome

/-- The bytes queued for transmission: the first `m_nWriteSize` bytes of the
write buffer (what `WriteChar` hands to `WriteFile`). -/
def queued (s : Session) : List Nat :=
  match s.m_szWriteBuffer with
  | none => []
  | some buf => buf.take (toUInt32 s.m_nWriteSize)

/-! ## Close -/

/-- The end of `CommThread`, line 217: the worker leaves its loop and clears
`m_bThreadAlive`. -/
def CommThread_exit (s : Session) : Session :=
  { s with m_bThreadAlive := false }

/-- `Close`, lines 357-393. In the first branch the caller sets
`m_bUserRequestClose` and waits until `m_bThreadAlive` is false; the worker
tests the flag at the head of its loops (lines 195, 290) and leaves through
`CommThread_exit`; then the flag is cleared. -/
def Close (s : Session) : Session :=
  let s1 : Session :=
    if (!s.m_bUserRequestClose) && s.m_bThreadAlive then
      let requested : Session := { s with m_bUserRequestClose := true }
      let stopped : Session := CommThread_exit requested
      { stopped with m_bUserRequestClose := false }
    else s
  { s1 with m_hComm := none, m_szWriteBuffer := none, m_Thread := none }

/-- The state after `n` consecutive calls of `Close`. -/
def closeN : Nat → Session → Session
  | 0, s => s
  | n + 1, s => closeN n (Close s)

/-! ## Write -/

/-- `memcpy (dst + off, src, n)` into the array `dst`. `none` stands for an
access outside `dst` or `src`. -/
def memcpy (dst : List Nat) (off : Int) (src : List Nat) (n : Int) : Option (List Nat) :=
  if 0 ≤ off ∧ 0 ≤ n ∧ off + n ≤ dst.length ∧ n ≤ src.length then
    some (dst.take off.toNat ++ src.take n.toNat ++ dst.drop (off.toNat + n.toNat))
  else none

/-- `strlen`: the number of bytes before the first NUL of the memory `p`. -/
def strlen (p : List Nat) : Nat := (p.takeWhile (fun c => c != 0)).length

/-- `strcpy (dst + off, src)`: copies the string and its terminating NUL. -/
def strcpy (dst : List Nat) (off : Int) (src : List Nat) : Option (List Nat) :=
  memcpy dst off (src.takeWhile (fun c => c != 0) ++ [0]) ((strlen src : Int) + 1)

/-- The indices of the array that `strcpy (dst + off, src)` writes: one for
each byte of the string, from `off` on, and one for the terminating NUL, at
`off + strlen (src)`. -/
def strcpyWrites (off : Int) (src : List Nat) : List Int :=
  (List.range (strlen src + 1)).map (fun (k : Nat) => off + (k : Int))

/-- The time-to-live expression of lines 407 and 429:
`((1000UL * (ByteSize + StopBits + 1) * m_nWriteSize) / BaudRate) + 1`,
computed in `unsigned long` and stored in an `int`. -/
def ttlOf (dcb : DCB) (m_nWriteSize : Int) : Except Fault Int :=
  if dcb.BaudRate = 0 then .error .divideByZero
  else
    let bits : Nat := (1000 * (dcb.ByteSize + dcb.StopBits + 1)) % 4294967296
    let prod : Nat := (bits * toUInt32 m_nWriteSize) % 4294967296
    .ok (toInt32 (((prod / dcb.BaudRate + 1) % 4294967296 : Nat) : Int))

/-- `Write (void *Buffer, int nSize)`, lines 419-430: everything up to
`LeaveCriticalSection`. The result is the computed `ttl` or the fault, and
the state of the object at that point. The wait for `m_nWriteSize` to
become 0 and the final `Sleep (ttl)` do not change the object. -/
def Write (s : Session) (Buffer : Option (List Nat)) (nSize : Int) :
    Except Fault Int × Session :=
  if s.m_hComm = none then (.error (.assertion 422), s)
  else
    match Buffer with
    | none => (.error (.assertion 423), s)
    | some src =>
      if ¬ (nSize > 0) then (.error (.assertion 424), s)
      else if ¬ (toInt32 (s.m_nWriteSize + nSize) < toInt32 s.m_nWriteBufferSize) then
        (.error (.assertion 426), s)
      else
        match s.m_szWriteBuffer with
        | none => (.error .accessViolation, s)
        | some dst =>
          match memcpy dst s.m_nWriteSize src nSize with
          | none => (.error .accessViolation, s)
          | some dst1 =>
            let s1 : Session :=
              { s with m_szWriteBuffer := some dst1,
                       m_nWriteSize := toInt32 (s.m_nWriteSize + nSize) }
            (ttlOf s1.m_dcb s1.m_nWriteSize, s1)

/-- `Write (char *Buffer)`, lines 395-408: the overload for a NUL-terminated
string, up to `LeaveCriticalSection`. -/
def WriteString (s : Session) (Buffer : Option (List Nat)) :
    Except Fault Int × Session :=
  if s.m_hComm = none then (.error (.assertion 399), s)
  else
    match Buffer with
    | none => (.error (.assertion 400), s)
    | some src =>
      let nSize : Int := toInt32 (strlen src)
      if ¬ (nSize > 0) then (.error (.assertion 402), s)
      else if ¬ (toInt32 (s.m_nWriteSize + nSize) < toInt32 s.m_nWriteBufferSize) then
        (.error (.assertion 404), s)
      else
        match s.m_szWriteBuffer with
        | none => (.error .accessViolation, s)
        | some dst =>
          match strcpy dst s.m_nWriteSize src with
          | none => (.error .accessViolation, s)
          | some dst1 =>
            let s1 : Session :=
              { s with m_szWriteBuffer := some dst1,
                       m_nWriteSize := toInt32 (s.m_nWriteSize + nSize) }
            (ttlOf s1.m_dcb s1.m_nWriteSize, s1)

/-! ## Error reporting and the trace -/

/-- What `ProcessErrorMessage` obtains from the system: the value of
`GetLastError ()`, whether `FormatMessage` returned a positive length, whether
it set `lpMsgBuf`, and whether `LocalAlloc` returned memory for `Temp`. -/
structure ErrInfo where
  dwError : Nat
  formatted : Bool
  lpMsgBuf : Bool
  Temp : Bool
deriving DecidableEq, Repr

/-- The texts `ProcessErrorMessage` is called with. -/
inductive ErrorText where
  | SetCommState | GetCommState | SetCommMask | SetCommTimeouts
  | SetupComm | PurgeComm | CreateThread | WriteFile | ReadFile
deriving DecidableEq, Repr

/-- The result of one call of `ReadFile` for one byte: the return value, the
number of bytes read, the content of `RXBuff` afterwards, and the error
information of the thread. -/
structure ReadResult where
  bResult : Bool
  BytesRead : Nat
  RXBuff : Nat
  err : ErrInfo
deriving DecidableEq, Repr

/-- The result of one call of `WriteFile`: the return value, the number of
bytes sent, and the error information of the thread. -/
structure WriteResult where
  bResult : Bool
  Sent : Nat
  err : ErrInfo
deriving DecidableEq, Repr

/-- What the code does that is visible outside the object. -/
inductive Event where
  /-- `WriteFile (m_hComm, m_szWriteBuffer, m_nWriteSize, ...)`: the bytes
  handed to the device and the byte count passed. -/
  | writeFile (bytes : List Nat) (nNumberOfBytesToWrite : Nat)
  /-- One call of `ReadFile` for one byte, with its result. -/
  | readFile (r : ReadResult)
  /-- `PostMessage (hWnd, SERIAL_PORT_MESSAGE, wParam, lParam)`. -/
  | postMessage (hWnd : Option Nat) (wParam : Nat) (lParam : Nat)
  /-- The modal `AfxMessageBox` of `ProcessErrorMessage`. -/
  | messageBox (text : ErrorText) (dwError : Nat)
deriving DecidableEq, Repr

/-- `ProcessErrorMessage`, lines 222-254: the events it produces and the
fault of the `assert` of line 252, if that fails. -/
def ProcessErrorMessage (text : ErrorText) (e : ErrInfo) : List Event × Option Fault :=
  if e.formatted then
    let shown : List Event :=
      if e.lpMsgBuf then
        if e.Temp then [Event.messageBox text e.dwError] else []
      else []
    if e.dwError = ERROR_SUCCESS then (shown, none) else (shown, some (.assertion 252))
  else ([], none)

/-- The messages posted to the owner window, in order. -/
def posted : List Event → List (Nat × Nat)
  | [] => []
  | Event.postMessage _ wParam lParam :: rest => (wParam, lParam) :: posted rest
  | _ :: rest => posted rest

/-- The bytes of the `EV_RXCHAR` messages posted to the owner, in order. -/
def rxPosted : List Event → List Nat
  | [] => []
  | Event.postMessage _ wParam lParam :: rest =>
    if wParam = EV_RXCHAR then lParam :: rxPosted rest else rxPosted rest
  | _ :: rest => rxPosted rest

/-- The byte counts of the `EV_TXEMPTY` messages posted to the owner, in order. -/
def txPosted : List Event → List Nat
  | [] => []
  | Event.postMessage _ wParam lParam :: rest =>
    if wParam = EV_TXEMPTY then lParam :: txPosted rest else txPosted rest
  | _ :: rest => txPosted rest

/-- The calls of `WriteFile`, in order: the bytes handed over and the count. -/
def osWrites : List Event → List (List Nat × Nat)
  | [] => []
  | Event.writeFile bytes n :: rest => (bytes, n) :: osWrites rest
  | _ :: rest => osWrites rest

/-- The calls of `ReadFile`, in order, with their results. -/
def osReads : List Event → List ReadResult
  | [] => []
  | Event.readFile r :: rest => r :: osReads rest
  | _ :: rest => osReads rest

/-- The message boxes shown, in order. -/
def boxes : List Event → List (ErrorText × Nat)
  | [] => []
  | Event.messageBox text dwError :: rest => (text, dwError) :: boxes rest
  | _ :: rest => boxes rest

/-- The bytes the device read returns: of a list of read results, the byte
of each successful read that yielded one byte, in order. -/
def deviceBytes : List ReadResult → List Nat
  | [] => []
  | r :: rest =>
    if r.bResult = true ∧ r.BytesRead = 1 then r.RXBuff :: deviceBytes rest
    else deviceBytes rest

/-- The events of successful one-byte reads: each `ReadFile` followed by the
`EV_RXCHAR` message carrying its byte. -/
def rxEvents (owner : Option Nat) : List ReadResult → List Event
  | [] => []
  | r :: rest =>
    Event.readFile r :: Event.postMessage owner EV_RXCHAR r.RXBuff :: rxEvents owner rest

/-- The outbound stream: the bytes handed to the device by all calls of
`WriteFile`, in order. -/
def outbound (t : List Event) : List Nat := ((osWrites t).map Prod.fst).flatten

/-! ## Open -/

/-- The arguments of `Open`, lines 38-50. -/
structure OpenArgs where
  pPortOwner : Option Nat
  port : Nat
  baud : Nat
  parity : Nat
  databits : Nat
  stopbits : Nat
  dwCommEvents : Nat
  nBufferSize : Nat
  ReadIntervalTimeout : Nat
  ReadTotalTimeoutMultiplier : Nat
  ReadTotalTimeoutConstant : Nat
  WriteTotalTimeoutMultiplier : Nat
  WriteTotalTimeoutConstant : Nat

/-- The results of the system calls of one call of `Open`: the content of the
array returned by `new char[nBufferSize]` (`none` for `NULL`), the handle
returned by `CreateFile` (`none` for `INVALID_HANDLE_VALUE`), the results of
the configuration calls, the `DCB` read by `GetCommState` (`none` when it
fails), the handle returned by `CreateThread` (`none` for `NULL`) and the
error information seen by `ProcessErrorMessage`. -/
structure OpenEnv where
  newChars : Option (Nat → Nat)
  CreateFile : Option Nat
  SetCommTimeouts : Bool
  SetCommMask : Bool
  GetCommState : Option DCB
  SetCommState : Bool
  SetupComm : Bool
  PurgeComm : Bool
  CreateThread : Option Nat
  err : ErrInfo

/-- A call outcome: the value returned or the fault, the object, and the
events produced. -/
structure Outcome (α : Type) where
  result : Except Fault α
  port : Session
  events : List Event

/-- The failure paths of `Open` that report through `ProcessErrorMessage`
and then set `ret = FALSE`. -/
def Open_fail (text : ErrorText) (e : OpenEnv) (s : Session) : Outcome Bool :=
  match ProcessErrorMessage text e.err with
  | (ev, some f) => { result := .error f, port := s, events := ev }
  | (ev, none) => { result := .ok false, port := s, events := ev }

/-- `Open`, lines 149-176: `SetupComm`, `PurgeComm` and the start of the
worker thread. -/
def Open_start (e : OpenEnv) (s : Session) : Outcome Bool :=
  if !e.SetupComm then Open_fail .SetupComm e s
  else if !e.PurgeComm then Open_fail .PurgeComm e s
  else
    let s1 : Session := { s with m_bThreadAlive := true, m_bUserRequestClose := false }
    if s1.m_Thread ≠ none then { result := .error (.assertion 167), port := s1, events := [] }
    else
      match e.CreateThread with
      | some h => { result := .ok true, port := { s1 with m_Thread := some h }, events := [] }
      | none =>
        match ProcessErrorMessage .CreateThread e.err with
        | (ev, some f) => { result := .error f, port := s1, events := ev }
        | (ev, none) =>
          { result := .ok false, port := { s1 with m_bThreadAlive := false }, events := ev }

/-- `Open`, lines 60-176: from saving the owner to the label `done`. -/
def Open_configure (a : OpenArgs) (e : OpenEnv) (s : Session) : Outcome Bool :=
  let s1 : Session := { s with m_pOwner := a.pPortOwner }
  match e.newChars with
  | none => { result := .ok false, port := { s1 with m_szWriteBuffer := none }, events := [] }
  | some content =>
    let s2 : Session :=
      { s1 with m_szWriteBuffer := some ((List.range a.nBufferSize).map content),
                m_nPortNr := a.port,
                m_nWriteBufferSize := a.nBufferSize,
                m_dwCommEvents := a.dwCommEvents ||| (EV_RXCHAR ||| EV_TXEMPTY) }
    match e.CreateFile with
    | none => { result := .ok false, port := { s2 with m_hComm := none }, events := [] }
    | some h =>
      let s3 : Session :=
        { s2 with m_hComm := some h,
                  m_CommTimeouts :=
                    { ReadIntervalTimeout := a.ReadIntervalTimeout,
                      ReadTotalTimeoutMultiplier := a.ReadTotalTimeoutMultiplier,
                      ReadTotalTimeoutConstant := a.ReadTotalTimeoutConstant,
                      WriteTotalTimeoutMultiplier := a.WriteTotalTimeoutMultiplier,
                      WriteTotalTimeoutConstant := a.WriteTotalTimeoutConstant } }
      if e.SetCommTimeouts then
        if e.SetCommMask then
          match e.GetCommState with
          | some dcb =>
            let s4 : Session :=
              { s3 with m_dcb :=
                  { dcb with BaudRate := a.baud, Parity := a.parity, ByteSize := a.databits,
                             StopBits := a.stopbits, fOutxCtsFlow := false,
                             fRtsControl := RTS_CONTROL_DISABLE, fOutxDsrFlow := false,
                             fDtrControl := DTR_CONTROL_DISABLE, fBinary := true,
                             fDsrSensitivity := false, fTXContinueOnXoff := false,
                             fOutX := false, fInX := false, fErrorChar := false,
                             fNull := false, fAbortOnError := false } }
            if e.SetCommState then Open_start e s4
            else Open_fail .SetCommState e s4
          | none => Open_fail .GetCommState e s3
        else Open_fail .SetCommMask e s3
      else Open_fail .SetCommTimeouts e s3

/-- `Open`, lines 38-187. -/
def Open (a : OpenArgs) (e : OpenEnv) (s : Session) : Outcome Bool :=
  let s0 : Session := Close s
  if ¬ (a.port ≤ SERIAL_PORT_MAX) then { result := .error (.assertion 57), port := s0, events := [] }
  else if a.pPortOwner = none then { result := .error (.assertion 58), port := s0, events := [] }
  else
    let r := Open_configure a e s0
    match r.result with
    | .ok false => { r with port := Close r.port }
    | _ => r

/-! ## The worker thread -/

/-- The object together with its surroundings: the results of the coming
calls of `ReadFile` (when the list is used up the device stays silent and
every further read times out), the trace so far, and the fault that ended
the process, if any. -/
structure World where
  port : Session
  reads : List ReadResult
  trace : List Event
  fault : Option Fault

/-- The result of a `ReadFile` that times out without data. -/
def readTimeout : ReadResult :=
  { bResult := true, BytesRead := 0, RXBuff := 0,
    err := { dwError := ERROR_SUCCESS, formatted := false, lpMsgBuf := false, Temp := false } }

/-- The loop of `ReceiveChar`, lines 288-319, over the coming read results.
Returns the read results left, the trace, the fault of a failed `assert`, and
the `BOOL` the function returns. -/
def ReceiveChar_loop (s : Session) (owner : Option Nat) :
    List ReadResult → List Event → List ReadResult × List Event × Option Fault × Bool
  | [], t =>
    if !s.m_bThreadAlive then ([], t, none, true)
    else if s.m_bUserRequestClose then ([], t, none, true)
    else ([], t ++ [Event.readFile readTimeout], none, true)
  | r :: rest, t =>
    if !s.m_bThreadAlive then (r :: rest, t, none, true)
    else if s.m_bUserRequestClose then (r :: rest, t, none, true)
    else
      let t1 := t ++ [Event.readFile r]
      if r.bResult && decide (r.BytesRead > 0) && decide (r.BytesRead ≤ 1) then
        ReceiveChar_loop s owner rest (t1 ++ [Event.postMessage owner EV_RXCHAR r.RXBuff])
      else if (!r.bResult) && decide (ERROR_ACCESS_DENIED = r.err.dwError) then
        match ProcessErrorMessage .ReadFile r.err with
        | (ev, some f) => (rest, t1 ++ ev, some f, false)
        | (ev, none) => (rest, t1 ++ ev, none, false)
      else (rest, t1, none, true)

/-- `ReceiveChar`, lines 282-320. -/
def ReceiveChar (w : World) : World × Bool :=
  match ReceiveChar_loop w.port w.port.m_pOwner w.reads w.trace with
  | (reads, t, some f, ret) => ({ w with reads := reads, trace := t, fault := some f }, ret)
  | (reads, t, none, ret) => ({ w with reads := reads, trace := t }, ret)

/-- `WriteChar`, lines 260-266: the call of `WriteFile` inside the critical
section. -/
def WriteChar_locked (w : World) : World :=
  { w with trace := w.trace ++ [Event.writeFile (queued w.port) (toUInt32 w.port.m_nWriteSize)] }

/-- `WriteChar`, lines 268-279: what follows `LeaveCriticalSection`, given
the result of the `WriteFile`. Returns the `UINT` the function returns. -/
def WriteChar_unlocked (wr : WriteResult) (w : World) : World × Nat :=
  if !wr.bResult then
    match ProcessErrorMessage .WriteFile wr.err with
    | (ev, some f) => ({ w with trace := w.trace ++ ev, fault := some f }, EOF_UINT)
    | (ev, none) =>
      ({ w with trace := w.trace ++ ev, port := { w.port with m_nWriteSize := 0 } }, EOF_UINT)
  else if wr.Sent ≠ toUInt32 w.port.m_nWriteSize then
    ({ w with fault := some (.assertion 276) }, wr.Sent)
  else ({ w with port := { w.port with m_nWriteSize := 0 } }, wr.Sent)

/-- `WriteChar`, lines 256-280. -/
def WriteChar (wr : WriteResult) (w : World) : World × Nat :=
  WriteChar_unlocked wr (WriteChar_locked w)

/-- `CommThread`, lines 204-211: what the loop does with the value returned
by `WriteChar`. The `Bool` is false when the loop is left by `break`. -/
def CommThread_sent (w : World) (BytesSent : Nat) : World × Bool :=
  if EOF_UINT ≠ BytesSent then
    ({ w with trace := w.trace ++ [Event.postMessage w.port.m_pOwner EV_TXEMPTY BytesSent] }, true)
  else (w, false)

/-- The worker has left the loop of `CommThread`: line 217. -/
def CommThread_left (w : World) : World :=
  { w with port := CommThread_exit w.port }

/-- One pass of the worker through the loop of `CommThread`, lines 193-215,
`wr` being the result of the `WriteFile` of this pass (used when the pass
writes). The `Bool` tells whether the thread is still in the loop after the
pass; when it is not, the thread has run line 217, unless a fault ended the
process. -/
def CommThread_pass (wr : WriteResult) (w : World) : World × Bool :=
  if w.fault.isSome then (w, false)
  else if !w.port.m_bThreadAlive then (CommThread_left w, false)
  else if w.port.m_bUserRequestClose then (CommThread_left w, false)
  else if w.port.m_nWriteSize > 0 then
    match WriteChar wr w with
    | (w1, BytesSent) =>
      if w1.fault.isSome then (w1, false)
      else
        match CommThread_sent w1 BytesSent with
        | (w2, true) =>
          let w3 := (ReceiveChar w2).1
          (w3, !w3.fault.isSome)
        | (w2, false) => (CommThread_left w2, false)
  else
    let w3 := (ReceiveChar w).1
    (w3, !w3.fault.isSome)

/-- `CommThread`, lines 189-220: the worker runs passes, one per element of
the list of `WriteFile` results, until it leaves the loop. -/
def CommThread : List WriteResult → World → World
  | [], w => w
  | wr :: wrs, w =>
    match CommThread_pass wr w with
    | (w1, true) => CommThread wrs w1
    | (w1, false) => w1

/-! ## Sequences of operations -/

/-- The operations on a session, the caller's and the worker's. `callWrite` and
`callWriteString` are the enqueueing parts of the two overloads of `Write`;
`workerPass` is one pass of the worker thread. -/
inductive Action where
  | callOpen (a : OpenArgs) (e : OpenEnv)
  | callWrite (Buffer : Option (List Nat)) (nSize : Int)
  | callWriteString (Buffer : Option (List Nat))
  | workerPass (wr : WriteResult)
  | callClose

/-- The effect of one operation. After a fault nothing happens any more. -/
def step (w : World) (act : Action) : World :=
  if w.fault.isSome then w
  else
    match act with
    | .callOpen a e =>
      let r := Open a e w.port
      { w with port := r.port, trace := w.trace ++ r.events,
               fault := match r.result with
                        | .error f => some f
                        | .ok _ => none }
    | .callWrite Buffer nSize =>
      match Write w.port Buffer nSize with
      | (.ok _, s) => { w with port := s }
      | (.error f, s) => { w with port := s, fault := some f }
    | .callWriteString Buffer =>
      match WriteString w.port Buffer with
      | (.ok _, s) => { w with port := s }
      | (.error f, s) => { w with port := s, fault := some f }
    | .workerPass wr => (CommThread_pass wr w).1
    | .callClose => { w with port := Close w.port }

/-- The effect of a sequence of operations. -/
def run (w : World) (acts : List Action) : World := acts.foldl step w

/-- A freshly constructed session and a device that will deliver `reads`. -/
def freshWorld (raw : Session) (reads : List ReadResult) : World :=
  { port := CSerialPort_ctor raw, reads := reads, trace := [], fault := none }

/-- The write-queue invariant of the data model: `0 <= length <= capacity`. -/
def queueInvariant (s : Session) : Prop :=
  0 ≤ s.m_nWriteSize ∧ s.m_nWriteSize ≤ (s.m_nWriteBufferSize : Int)

instance (s : Session) : Decidable (queueInvariant s) := by
  unfold queueInvariant; exact inferInstance

/-- The write buffer, when allocated, has `m_nWriteBufferSize` bytes. -/
def bufferSized (s : Session) : Prop :=
  ∀ buf : List Nat, s.m_szWriteBuffer = some buf → buf.length = s.m_nWriteBufferSize

/-- Between the worlds `w` and `v` the device read returned the results
`consumed` to the worker, and the bytes posted to the owner as `EV_RXCHAR`
since `w` are exactly the bytes of those reads, in order. -/
def Delivers (w v : World) : Prop :=
  ∃ consumed : List ReadResult,
    w.reads = consumed ++ v.reads
    ∧ rxPosted v.trace = rxPosted w.trace ++ deviceBytes consumed

/-! ## Callers and the worker interleaved -/

/-- The steps of callers of `Write` and of the worker's write, at the
granularity of the critical section: a caller's enqueue (lines 425-430, all
under the lock), the worker's test of line 200 with the `WriteFile` under the
lock (lines 260-266), and the rest of the worker's write after the lock is
released (lines 268-279 and 204-211). -/
inductive RaceStep where
  | callerWrite (Buffer : Option (List Nat)) (nSize : Int)
  | workerWriteFile (wr : WriteResult)
  | workerAfterUnlock

/-- The world and the worker's position: `pending` holds the result of the
`WriteFile` while the worker is between lines 266 and 268. -/
structure Race where
  world : World
  pending : Option WriteResult

/-- One step of the interleaving. -/
def raceStep (r : Race) : RaceStep → Race
  | .callerWrite Buffer nSize =>
    { r with world := step r.world (.callWrite Buffer nSize) }
  | .workerWriteFile wr =>
    match r.pending with
    | some _ => r
    | none =>
      if r.world.fault.isSome then r
      else if !r.world.port.m_bThreadAlive then r
      else if r.world.port.m_bUserRequestClose then r
      else if r.world.port.m_nWriteSize > 0 then
        { world := WriteChar_locked r.world, pending := some wr }
      else r
  | .workerAfterUnlock =>
    match r.pending with
    | none => r
    | some wr =>
      match WriteChar_unlocked wr r.world with
      | (w1, BytesSent) =>
        if w1.fault.isSome then { world := w1, pending := none }
        else
          match CommThread_sent w1 BytesSent with
          | (w2, true) => { world := w2, pending := none }
          | (w2, false) => { world := CommThread_left w2, pending := none }

/-- The effect of a schedule. -/
def race (r : Race) (sched : List RaceStep) : Race := sched.foldl raceStep r


/-! ## Concrete inputs -/

/-- Arguments of `Open` for port 8 at 9600 baud with 8 data bits, no parity,
the given stop-bits code and the given size of the write buffer. -/
def portArgs (stopbits : Nat) (nBufferSize : Nat) : OpenArgs :=
  { pPortOwner := some 7, port := 8, baud := 9600, parity := 0, databits := 8,
    stopbits := stopbits, dwCommEvents := EV_RXCHAR, nBufferSize := nBufferSize,
    ReadIntervalTimeout := 4294967295, ReadTotalTimeoutMultiplier := 0,
    ReadTotalTimeoutConstant := 0, WriteTotalTimeoutMultiplier := 10,
    WriteTotalTimeoutConstant := 10 }

/-- No error pending and nothing to render. -/
def noError : ErrInfo :=
  { dwError := ERROR_SUCCESS, formatted := false, lpMsgBuf := false, Temp := false }

/-- A system on which every call of `Open` succeeds; fresh memory is zero. -/
def goodEnv : OpenEnv :=
  { newChars := some (fun _ => 0), CreateFile := some 100, SetCommTimeouts := true,
    SetCommMask := true, GetCommState := some zeroDCB, SetCommState := true,
    SetupComm := true, PurgeComm := true, CreateThread := some 200, err := noError }

/-- The session that a successful `Open` of a freshly constructed object
yields. -/
def openedSession (stopbits : Nat) (nBufferSize : Nat) : Session :=
  (Open (portArgs stopbits nBufferSize) goodEnv (CSerialPort_ctor zeroSession)).port

/-- A payload of ten bytes. -/
def tenBytes : List Nat := [1, 2, 3, 4, 5, 6, 7, 8, 9, 10]

/-- Systems on which `Open` fails at one step, by the number of the step:
0 buffer allocation, 1 device acquisition, 2 timeouts, 3 event mask,
4 and 5 line parameters (`GetCommState`, `SetCommState`), 6 `SetupComm`,
7 purge, 8 worker start. -/
def failAt : Nat → OpenEnv
  | 0 => { goodEnv with newChars := none }
  | 1 => { goodEnv with CreateFile := none }
  | 2 => { goodEnv with SetCommTimeouts := false }
  | 3 => { goodEnv with SetCommMask := false }
  | 4 => { goodEnv with GetCommState := none }
  | 5 => { goodEnv with SetCommState := false }
  | 6 => { goodEnv with SetupComm := false }
  | 7 => { goodEnv with PurgeComm := false }
  | _ => { goodEnv with CreateThread := none }

/-- An error that `FormatMessage` renders and for which the message box is
shown. -/
def renderedError (dwError : Nat) : ErrInfo :=
  { dwError := dwError, formatted := true, lpMsgBuf := true, Temp := true }

/-- A world in which the session is open with a buffer of 8 bytes, the
worker runs, a `Write` has queued the bytes 1, 2, 3, and the device will
deliver nothing. -/
def queuedWorld : World :=
  { port := (Write (openedSession ONESTOPBIT 8) (some [1, 2, 3]) 3).2,
    reads := [], trace := [], fault := none }

/-- A `ReadFile` that fails with `ERROR_ACCESS_DENIED`, the error not being
rendered by `FormatMessage`. -/
def deniedRead : ReadResult :=
  { bResult := false, BytesRead := 0, RXBuff := 0,
    err := { dwError := ERROR_ACCESS_DENIED, formatted := false, lpMsgBuf := false,
             Temp := false } }

/-- A `ReadFile` that fails with `ERROR_ACCESS_DENIED`, the error being
rendered and shown. -/
def deniedReadShown : ReadResult :=
  { bResult := false, BytesRead := 0, RXBuff := 0, err := renderedError ERROR_ACCESS_DENIED }

/-- A successful `ReadFile` of the byte `b`. -/
def byteRead (b : Nat) : ReadResult :=
  { bResult := true, BytesRead := 1, RXBuff := b, err := noError }

/-- A successful `WriteFile` of `n` bytes. -/
def sentAll (n : Nat) : WriteResult :=
  { bResult := true, Sent := n, err := noError }

/-- A world in which the session is open, the worker runs, the queue is
empty and the device will deliver `reads`. -/
def idleWorld (reads : List ReadResult) : World :=
  { port := openedSession ONESTOPBIT 8, reads := reads, trace := [], fault := none }

/-- `Open` with a buffer of 8 bytes, a `Write` of 5 bytes, `Close` before the
worker has run, and `Open` again with a buffer of 4 bytes; every system call
succeeds. -/
def reopenSmaller : List Action :=
  [.callOpen (portArgs ONESTOPBIT 8) goodEnv,
   .callWrite (some [1, 2, 3, 4, 5]) 5,
   .callClose,
   .callOpen (portArgs ONESTOPBIT 4) goodEnv]

/-- Caller A writes the bytes 1, 2; the worker hands them to `WriteFile` and
leaves the critical section; caller B writes the bytes 3, 4; the worker
continues after the critical section. -/
def writeBetweenUnlockAndReset : List RaceStep :=
  [.callerWrite (some [1, 2]) 2,
   .workerWriteFile (sentAll 2),
   .callerWrite (some [3, 4]) 2,
   .workerAfterUnlock]

/-- The two callers one after the other, the worker's write in between and
after. -/
def writesInTurn : List RaceStep :=
  [.callerWrite (some [1, 2]) 2,
   .workerWriteFile (sentAll 2),
   .workerAfterUnlock,
   .callerWrite (some [3, 4]) 2,
   .workerWriteFile (sentAll 2),
   .workerAfterUnlock]
/-! ## Machine integer lemmas -/

theorem toInt32_of_range (x : Int) (h1 : -2147483648 ≤ x) (h2 : x < 2147483648) :
    toInt32 x = x := by
  unfold toInt32; omega

theorem toUInt32_natCast (n : Nat) (h : n < 4294967296) : toUInt32 (n : Int) = n := by
  unfold toUInt32; omega

/-! ## Copy lemmas -/

theorem memcpy_inside (dst src : List Nat) (off : Nat) (h : off + src.length ≤ dst.length) :
    memcpy dst (off : Int) src (src.length : Int)
      = some (dst.take off ++ src ++ dst.drop (off + src.length)) := by
  unfold memcpy
  have hc : (0 : Int) ≤ off ∧ (0 : Int) ≤ src.length ∧
      (off : Int) + src.length ≤ dst.length ∧ (src.length : Int) ≤ src.length := by
    refine ⟨by omega, by omega, by omega, le_refl _⟩
  rw [if_pos hc]
  simp

theorem takeWhile_payload (bytes tail : List Nat) (h : ∀ c ∈ bytes, c ≠ 0) :
    (bytes ++ 0 :: tail).takeWhile (fun c => c != 0) = bytes := by
  induction bytes with
  | nil => simp
  | cons b bs ih =>
    have hb : b ≠ 0 := h b (List.mem_cons_self _ _)
    have hbs : ∀ c ∈ bs, c ≠ 0 := fun c hc => h c (List.mem_cons_of_mem _ hc)
    simp [List.takeWhile_cons, hb, ih hbs]

theorem strlen_payload (bytes tail : List Nat) (h : ∀ c ∈ bytes, c ≠ 0) :
    strlen (bytes ++ 0 :: tail) = bytes.length := by
  unfold strlen; rw [takeWhile_payload bytes tail h]

/-! ## Write: the capacity check -/

theorem Write_rejects (s : Session) (bytes : List Nat)
    (hopen : s.m_hComm ≠ none) (hne : bytes ≠ [])
    (hint : s.m_nWriteSize + bytes.length < 2147483648)
    (hcap : s.m_nWriteBufferSize < 2147483648)
    (hfull : (s.m_nWriteBufferSize : Int) ≤ s.m_nWriteSize + bytes.length) :
    Write s (some bytes) bytes.length = (.error (.assertion 426), s) := by
  have hpos : (bytes.length : Int) > 0 := by
    have := List.length_pos.mpr hne
    omega
  have h1 : toInt32 (s.m_nWriteSize + bytes.length) = s.m_nWriteSize + bytes.length :=
    toInt32_of_range _ (by omega) hint
  have h2 : toInt32 (s.m_nWriteBufferSize : Int) = s.m_nWriteBufferSize :=
    toInt32_of_range _ (by omega) (by omega)
  unfold Write
  rw [if_neg hopen]
  simp only [h1, h2]
  rw [if_neg (not_not.mpr hpos), if_pos (by omega)]

theorem Write_accepts (s : Session) (buf bytes : List Nat)
    (hopen : s.m_hComm ≠ none) (hbuf : s.m_szWriteBuffer = some buf)
    (hsize : buf.length = s.m_nWriteBufferSize)
    (hlen : 0 ≤ s.m_nWriteSize) (hne : bytes ≠ [])
    (hcap : s.m_nWriteBufferSize < 2147483648)
    (hfit : s.m_nWriteSize + bytes.length < (s.m_nWriteBufferSize : Int)) :
    Write s (some bytes) bytes.length
      = (ttlOf s.m_dcb (s.m_nWriteSize + bytes.length),
         { s with m_szWriteBuffer :=
                    some (buf.take s.m_nWriteSize.toNat ++ bytes
                          ++ buf.drop (s.m_nWriteSize.toNat + bytes.length)),
                  m_nWriteSize := s.m_nWriteSize + bytes.length }) := by
  have hpos : (bytes.length : Int) > 0 := by
    have := List.length_pos.mpr hne
    omega
  have h1 : toInt32 (s.m_nWriteSize + bytes.length) = s.m_nWriteSize + bytes.length :=
    toInt32_of_range _ (by omega) (by omega)
  have h2 : toInt32 (s.m_nWriteBufferSize : Int) = s.m_nWriteBufferSize :=
    toInt32_of_range _ (by omega) (by omega)
  obtain ⟨L, hL⟩ := Int.eq_ofNat_of_zero_le hlen
  have hin : L + bytes.length ≤ buf.length := by omega
  have hcopy := memcpy_inside buf bytes L hin
  unfold Write
  rw [if_neg hopen]
  simp only [h1, h2]
  rw [if_neg (not_not.mpr hpos), if_neg (by omega)]
  simp only [hbuf]
  rw [hL] at *
  simp only [hcopy, Int.toNat_ofNat]

theorem WriteString_rejects (s : Session) (bytes tail : List Nat)
    (hopen : s.m_hComm ≠ none) (hlen : 0 ≤ s.m_nWriteSize) (hne : bytes ≠ [])
    (hnul : ∀ c ∈ bytes, c ≠ 0)
    (hint : s.m_nWriteSize + bytes.length < 2147483648)
    (hcap : s.m_nWriteBufferSize < 2147483648)
    (hfull : (s.m_nWriteBufferSize : Int) ≤ s.m_nWriteSize + bytes.length) :
    WriteString s (some (bytes ++ 0 :: tail)) = (.error (.assertion 404), s) := by
  have hpos : (bytes.length : Int) > 0 := by
    have := List.length_pos.mpr hne
    omega
  have h0 : toInt32 (bytes.length : Int) = bytes.length :=
    toInt32_of_range _ (by omega) (by omega)
  have h1 : toInt32 (s.m_nWriteSize + bytes.length) = s.m_nWriteSize + bytes.length :=
    toInt32_of_range _ (by omega) hint
  have h2 : toInt32 (s.m_nWriteBufferSize : Int) = s.m_nWriteBufferSize :=
    toInt32_of_range _ (by omega) (by omega)
  unfold WriteString
  rw [if_neg hopen]
  simp only [strlen_payload bytes tail hnul, h0, h1, h2]
  rw [if_neg (not_not.mpr hpos), if_pos (by omega)]

theorem WriteString_accepts (s : Session) (buf bytes tail : List Nat)
    (hopen : s.m_hComm ≠ none) (hbuf : s.m_szWriteBuffer = some buf)
    (hsize : buf.length = s.m_nWriteBufferSize)
    (hlen : 0 ≤ s.m_nWriteSize) (hne : bytes ≠ [])
    (hnul : ∀ c ∈ bytes, c ≠ 0)
    (hcap : s.m_nWriteBufferSize < 2147483648)
    (hfit : s.m_nWriteSize + bytes.length < (s.m_nWriteBufferSize : Int)) :
    WriteString s (some (bytes ++ 0 :: tail))
      = (ttlOf s.m_dcb (s.m_nWriteSize + bytes.length),
         { s with m_szWriteBuffer :=
                    some (buf.take s.m_nWriteSize.toNat ++ (bytes ++ [0])
                          ++ buf.drop (s.m_nWriteSize.toNat + (bytes.length + 1))),
                  m_nWriteSize := s.m_nWriteSize + bytes.length }) := by
  have hpos : (bytes.length : Int) > 0 := by
    have := List.length_pos.mpr hne
    omega
  have h0 : toInt32 (bytes.length : Int) = bytes.length :=
    toInt32_of_range _ (by omega) (by omega)
  have h1 : toInt32 (s.m_nWriteSize + bytes.length) = s.m_nWriteSize + bytes.length :=
    toInt32_of_range _ (by omega) (by omega)
  have h2 : toInt32 (s.m_nWriteBufferSize : Int) = s.m_nWriteBufferSize :=
    toInt32_of_range _ (by omega) (by omega)
  obtain ⟨L, hL⟩ := Int.eq_ofNat_of_zero_le hlen
  have hin : L + (bytes ++ [0]).length ≤ buf.length := by
    simp only [List.length_append, List.length_singleton]; omega
  have hcopy := memcpy_inside buf (bytes ++ [0]) L hin
  have hcast : ((bytes ++ [0]).length : Int) = (bytes.length : Int) + 1 := by simp
  rw [hcast] at hcopy
  unfold WriteString
  rw [if_neg hopen]
  simp only [strlen_payload bytes tail hnul, h0, h1, h2]
  rw [if_neg (not_not.mpr hpos), if_neg (by omega)]
  simp only [hbuf]
  unfold strcpy
  rw [hL] at *
  simp only [strlen_payload bytes tail hnul, takeWhile_payload bytes tail hnul, hcopy,
    Int.toNat_ofNat, List.length_append, List.length_singleton]

theorem ttlOf_ne_assertion (dcb : DCB) (n : Int) (line : Nat) :
    ttlOf dcb n ≠ .error (.assertion line) := by
  unfold ttlOf
  split <;> simp

theorem isOpen_handle (s : Session) (h : IsOpen s = true) : s.m_hComm ≠ none := by
  unfold IsOpen at h
  intro hn
  rw [hn] at h
  simp at h

theorem queued_after_copy (s : Session) (buf src rest : List Nat) (L : Nat) (n : Nat)
    (hL : L ≤ buf.length) (hn : src.length = n + rest.length)
    (hr : L + n < 4294967296) (tailPart : List Nat) :
    queued { s with m_szWriteBuffer := some (buf.take L ++ src ++ tailPart),
                    m_nWriteSize := (L : Int) + n }
      = buf.take L ++ src.take n := by
  unfold queued
  have hu : toUInt32 ((L : Int) + n) = L + n := by
    have := toUInt32_natCast (L + n) hr
    simpa using this
  simp only [hu]
  have hl : (buf.take L).length = L := by simp [List.length_take, Nat.min_eq_left hL]
  rw [List.append_assoc, List.take_append_eq_append_take, hl]
  have h1 : (buf.take L).take (L + n) = buf.take L := by
    apply List.take_of_length_le; omega
  rw [h1, List.take_append_eq_append_take]
  have h2 : L + n - L = n := by omega
  rw [h2]
  have h3 : n - src.length = 0 := by omega
  rw [h3]
  simp

/-- C1, counterexample: the session is open with a buffer of capacity 4 and
an empty queue, and the payload has 4 bytes, so `length + len (bytes) >
capacity` is false and the payload exactly fills the buffer; `Write` fails
at its capacity `assert` (line 426) instead of accepting the payload. -/
theorem Write_exact_fill_rejected :
    IsOpen (openedSession ONESTOPBIT 4) = true
    ∧ (openedSession ONESTOPBIT 4).m_nWriteBufferSize = 4
    ∧ (openedSession ONESTOPBIT 4).m_nWriteSize = 0
    ∧ ¬ ((openedSession ONESTOPBIT 4).m_nWriteSize + ([1, 2, 3, 4] : List Nat).length
          > ((openedSession ONESTOPBIT 4).m_nWriteBufferSize : Int))
    ∧ (Write (openedSession ONESTOPBIT 4) (some [1, 2, 3, 4]) 4).1 = .error (.assertion 426) := by
  refine ⟨rfl, rfl, rfl, by decide, rfl⟩

/-- C1, amended: on an open session whose buffer has `capacity` bytes and
whose queue has `length` bytes, `Write` of a non-empty payload fails at its
capacity check exactly when `length + len (bytes) >= capacity` (the check of
the code is `length + len (bytes) < capacity`, for both overloads), and the
failing `Write` leaves the object, hence the queue's length and contents,
unchanged; otherwise the payload is appended: the length becomes `length +
len (bytes)` and the queued bytes are the old ones followed by the payload.
A payload that exactly fills the buffer is rejected. The sizes are in the
range of `int`. -/
theorem Write_fails_iff_no_free_byte (s : Session) (buf bytes : List Nat)
    (hopen : IsOpen s = true) (hbuf : s.m_szWriteBuffer = some buf)
    (hsize : buf.length = s.m_nWriteBufferSize)
    (hlen : 0 ≤ s.m_nWriteSize) (hne : bytes ≠ [])
    (hint : s.m_nWriteSize + bytes.length < 2147483648)
    (hcap : s.m_nWriteBufferSize < 2147483648) :
    (((Write s (some bytes) bytes.length).1 = .error (.assertion 426)
        ↔ s.m_nWriteSize + bytes.length ≥ (s.m_nWriteBufferSize : Int))
      ∧ (s.m_nWriteSize + bytes.length ≥ (s.m_nWriteBufferSize : Int) →
          (Write s (some bytes) bytes.length).2 = s)
      ∧ (s.m_nWriteSize + bytes.length < (s.m_nWriteBufferSize : Int) →
          (Write s (some bytes) bytes.length).1
              = ttlOf s.m_dcb (s.m_nWriteSize + bytes.length)
          ∧ (Write s (some bytes) bytes.length).2.m_nWriteSize
              = s.m_nWriteSize + bytes.length
          ∧ queued (Write s (some bytes) bytes.length).2 = queued s ++ bytes))
    ∧ ((∀ c ∈ bytes, c ≠ 0) → ∀ tail : List Nat,
        ((WriteString s (some (bytes ++ 0 :: tail))).1 = .error (.assertion 404)
          ↔ s.m_nWriteSize + bytes.length ≥ (s.m_nWriteBufferSize : Int))
        ∧ (s.m_nWriteSize + bytes.length ≥ (s.m_nWriteBufferSize : Int) →
            (WriteString s (some (bytes ++ 0 :: tail))).2 = s)
        ∧ (s.m_nWriteSize + bytes.length < (s.m_nWriteBufferSize : Int) →
            (WriteString s (some (bytes ++ 0 :: tail))).1
                = ttlOf s.m_dcb (s.m_nWriteSize + bytes.length)
            ∧ (WriteString s (some (bytes ++ 0 :: tail))).2.m_nWriteSize
                = s.m_nWriteSize + bytes.length
            ∧ queued (WriteString s (some (bytes ++ 0 :: tail))).2 = queued s ++ bytes)) := by
  have ho := isOpen_handle s hopen
  obtain ⟨L, hL⟩ := Int.eq_ofNat_of_zero_le hlen
  have hq : ∀ fits : s.m_nWriteSize + bytes.length < (s.m_nWriteBufferSize : Int),
      queued s = buf.take L := by
    intro fits
    unfold queued
    rw [hbuf, hL, toUInt32_natCast L (by omega)]
  refine ⟨⟨?_, ?_, ?_⟩, ?_⟩
  · constructor
    · intro herr
      by_contra hlt
      rw [Write_accepts s buf bytes ho hbuf hsize hlen hne hcap (by omega)] at herr
      exact ttlOf_ne_assertion _ _ _ herr
    · intro hge
      rw [Write_rejects s bytes ho hne hint hcap (by omega)]
  · intro hge
    rw [Write_rejects s bytes ho hne hint hcap (by omega)]
  · intro hlt
    rw [Write_accepts s buf bytes ho hbuf hsize hlen hne hcap hlt]
    refine ⟨rfl, rfl, ?_⟩
    rw [hq hlt]
    have := queued_after_copy s buf bytes [] L bytes.length (by omega) (by simp) (by omega)
      (buf.drop (L + bytes.length))
    simp only [List.take_length] at this
    simpa [hL] using this
  · intro hnul tail
    refine ⟨?_, ?_, ?_⟩
    · constructor
      · intro herr
        by_contra hlt
        rw [WriteString_accepts s buf bytes tail ho hbuf hsize hlen hne hnul hcap (by omega)]
          at herr
        exact ttlOf_ne_assertion _ _ _ herr
      · intro hge
        rw [WriteString_rejects s bytes tail ho hlen hne hnul hint hcap (by omega)]
    · intro hge
      rw [WriteString_rejects s bytes tail ho hlen hne hnul hint hcap (by omega)]
    · intro hlt
      rw [WriteString_accepts s buf bytes tail ho hbuf hsize hlen hne hnul hcap hlt]
      refine ⟨rfl, rfl, ?_⟩
      rw [hq hlt]
      have := queued_after_copy s buf (bytes ++ [0]) [0] L bytes.length (by omega) (by simp)
        (by omega) (buf.drop (L + (bytes.length + 1)))
      simp only [List.take_left'] at this
      simpa [hL] using this

/-- C1, witness: on a buffer of capacity 4 with an empty queue a payload of 3
bytes is appended and one of 4 bytes is rejected, leaving the object as it
was. -/
theorem Write_fails_iff_no_free_byte_witness :
    queued (Write (openedSession ONESTOPBIT 4) (some [1, 2, 3]) 3).2 = [1, 2, 3]
    ∧ (Write (openedSession ONESTOPBIT 4) (some [1, 2, 3, 4]) 4).2 = openedSession ONESTOPBIT 4 := by
  have h3 := Write_fails_iff_no_free_byte (openedSession ONESTOPBIT 4) [0, 0, 0, 0] [1, 2, 3]
    rfl rfl rfl (by decide) (by decide) (by decide) (by decide)
  have h4 := Write_fails_iff_no_free_byte (openedSession ONESTOPBIT 4) [0, 0, 0, 0] [1, 2, 3, 4]
    rfl rfl rfl (by decide) (by decide) (by decide) (by decide)
  exact ⟨(h3.1.2.2 (by decide)).2.2, h4.1.2.1 (by decide)⟩

/-! ## Write: the time-to-live -/

theorem ttlOf_exact (dcb : DCB) (k : Nat) (hbaud : 0 < dcb.BaudRate) (hk : 0 < k)
    (hprod : 1000 * (dcb.ByteSize + dcb.StopBits + 1) * k < 4294967296)
    (hq : 1000 * (dcb.ByteSize + dcb.StopBits + 1) * k / dcb.BaudRate + 1 < 2147483648) :
    ttlOf dcb (k : Int)
      = .ok (((1000 * (dcb.ByteSize + dcb.StopBits + 1) * k / dcb.BaudRate + 1 : Nat) : Int)) := by
  have ha : 1000 * (dcb.ByteSize + dcb.StopBits + 1) < 4294967296 :=
    lt_of_le_of_lt (Nat.le_mul_of_pos_right _ hk) hprod
  have hkr : k < 4294967296 := by
    have h1 : k ≤ 1000 * (dcb.ByteSize + dcb.StopBits + 1) * k :=
      Nat.le_mul_of_pos_left _ (by omega)
    omega
  unfold ttlOf
  rw [if_neg (by omega)]
  simp only [toUInt32_natCast k hkr, Nat.mod_eq_of_lt ha, Nat.mod_eq_of_lt hprod]
  rw [Nat.mod_eq_of_lt (by omega)]
  rw [toInt32_of_range _ (le_trans (by decide) (Int.ofNat_nonneg _)) (by exact_mod_cast hq)]

/-- C2, counterexample: (1) at 9600 baud, 8 data bits and one stop bit (the
stop-bits code `ONESTOPBIT`, which is 0), a `Write` of 10 bytes on an empty
queue computes 10, where the claim's formula gives 11; (2) at 9600 baud,
8 data bits and two stop bits, a `Write` of 10 bytes on a queue that already
holds 10 bytes computes 23, where the claim's formula for `byteCount = 10`
gives 12. -/
theorem Write_ttl_not_claimed_formula :
    (stopBitsTimesTwo (openedSession ONESTOPBIT 64).m_dcb.StopBits = some (2 * 1)
      ∧ (Write (openedSession ONESTOPBIT 64) (some tenBytes) 10).1 = .ok 10
      ∧ 1000 * (8 + 1 + 1) * 10 / 9600 + 1 = 11)
    ∧ (stopBitsTimesTwo (openedSession TWOSTOPBITS 64).m_dcb.StopBits = some (2 * 2)
      ∧ (Write (openedSession TWOSTOPBITS 64) (some tenBytes) 10).2.m_nWriteSize = 10
      ∧ (Write (Write (openedSession TWOSTOPBITS 64) (some tenBytes) 10).2
            (some tenBytes) 10).1 = .ok 23
      ∧ 1000 * (8 + 2 + 1) * 10 / 9600 + 1 = 12) := by
  refine ⟨⟨rfl, rfl, by decide⟩, ⟨rfl, rfl, rfl, by decide⟩⟩

/-- C2, amended: for every `Write` of `byteCount` bytes that passes its
checks on an open session with `dataBits` data bits, `stopBits` stop bits and
a baud rate above 0, the time-to-live computed is `floor (1000 * (dataBits +
stopBits + 1) * L / baudRate) + 1`, where `L` is the queue length after the
append (`length + byteCount`, which is `byteCount` on an empty queue),
provided the value of the stop-bits field of the line configuration is the
number of stop bits it selects and the product fits the 32 bit arithmetic of
the code. -/
theorem Write_ttl_of_queue_length (s : Session) (buf bytes : List Nat)
    (length stopBits : Nat)
    (hopen : IsOpen s = true) (hbuf : s.m_szWriteBuffer = some buf)
    (hsize : buf.length = s.m_nWriteBufferSize)
    (hlen : s.m_nWriteSize = (length : Int)) (hne : bytes ≠ [])
    (hcap : s.m_nWriteBufferSize < 2147483648)
    (hfit : length + bytes.length < s.m_nWriteBufferSize)
    (hbaud : 0 < s.m_dcb.BaudRate)
    (hsel : stopBitsTimesTwo s.m_dcb.StopBits = some (2 * stopBits))
    (hfield : s.m_dcb.StopBits = stopBits)
    (hprod : 1000 * (s.m_dcb.ByteSize + stopBits + 1) * (length + bytes.length) < 4294967296)
    (hq : 1000 * (s.m_dcb.ByteSize + stopBits + 1) * (length + bytes.length)
            / s.m_dcb.BaudRate + 1 < 2147483648) :
    (Write s (some bytes) bytes.length).1
      = .ok (((1000 * (s.m_dcb.ByteSize + stopBits + 1) * (length + bytes.length)
                / s.m_dcb.BaudRate + 1 : Nat) : Int)) := by
  have ho := isOpen_handle s hopen
  have hpos : 0 < bytes.length := List.length_pos.mpr hne
  rw [Write_accepts s buf bytes ho hbuf hsize (by omega) hne hcap (by omega)]
  subst hfield
  have := ttlOf_exact s.m_dcb (length + bytes.length) hbaud (by omega) hprod hq
  rw [hlen]
  simpa using this

/-- C2, witness: at 9600 baud, 8 data bits and two stop bits a `Write` of 10
bytes on an empty queue computes `floor (1000 * 11 * 10 / 9600) + 1 = 12`. -/
theorem Write_ttl_of_queue_length_witness :
    (Write (openedSession TWOSTOPBITS 64) (some tenBytes) 10).1 = .ok 12 :=
  Write_ttl_of_queue_length (openedSession TWOSTOPBITS 64) (List.replicate 64 0) tenBytes 0 2
    rfl rfl rfl rfl (by decide) (by decide) (by decide) (by decide) rfl rfl
    (by decide) (by decide)

/-! ## Close and Open -/

theorem Close_released (s : Session) :
    (Close s).m_hComm = none ∧ (Close s).m_szWriteBuffer = none ∧ (Close s).m_Thread = none := by
  simp [Close]

theorem Close_flags (s : Session) (h : s.m_bUserRequestClose = false) :
    (Close s).m_bThreadAlive = false ∧ (Close s).m_bUserRequestClose = false := by
  unfold Close CommThread_exit
  cases ha : s.m_bThreadAlive <;> simp [h, ha]

theorem Close_Close (s : Session) : Close (Close s) = Close s := by
  unfold Close CommThread_exit
  cases ha : s.m_bThreadAlive <;> cases hc : s.m_bUserRequestClose <;> simp [ha, hc]

theorem closeN_succ (n : Nat) (s : Session) : closeN (n + 1) s = Close s := by
  induction n generalizing s with
  | zero => rfl
  | succ k ih =>
    show closeN (k + 1) (Close s) = Close s
    rw [ih (Close s), Close_Close]

theorem Open_fail_port (text : ErrorText) (e : OpenEnv) (s : Session) :
    (Open_fail text e s).port = s := by
  unfold Open_fail
  split <;> rfl

theorem Open_start_closeRequest (e : OpenEnv) (s : Session)
    (h : s.m_bUserRequestClose = false) :
    (Open_start e s).port.m_bUserRequestClose = false := by
  unfold Open_start Open_fail
  simp only []
  repeat' split
  all_goals first | rfl | exact h

theorem Open_configure_closeRequest (a : OpenArgs) (e : OpenEnv) (s : Session)
    (h : s.m_bUserRequestClose = false) :
    (Open_configure a e s).port.m_bUserRequestClose = false := by
  unfold Open_configure
  simp only []
  repeat' split
  all_goals first
    | exact h
    | (apply Open_start_closeRequest; exact h)
    | (rw [Open_fail_port]; exact h)

theorem Open_failed_port (a : OpenArgs) (e : OpenEnv) (s : Session)
    (hfail : (Open a e s).result = .ok false) :
    (Open a e s).port = Close (Open_configure a e (Close s)).port := by
  unfold Open at hfail ⊢
  simp only [] at hfail ⊢
  by_cases h1 : a.port ≤ SERIAL_PORT_MAX
  · by_cases h2 : a.pPortOwner = none
    · simp [h1, h2] at hfail
    · rw [if_neg (not_not.mpr h1), if_neg h2] at hfail ⊢
      rcases hres : (Open_configure a e (Close s)).result with f | b
      · simp [hres] at hfail
      · cases b
        · simp [hres]
        · simp [hres] at hfail
  · simp [h1] at hfail

/-- C3: when `Open` returns failure, whichever step failed, the session
afterwards holds no device handle, no write buffer and no worker thread:
`IsOpen ()` is false, `m_hComm` is invalid, `m_szWriteBuffer` and `m_Thread`
are null and `m_bThreadAlive` is false. The session is one on which no
`Close` is pending when `Open` is called (`m_bUserRequestClose` is false, as
it is whenever no other thread is inside `Close`). -/
theorem Open_failure_rolls_back (a : OpenArgs) (e : OpenEnv) (s : Session)
    (hidle : s.m_bUserRequestClose = false)
    (hfail : (Open a e s).result = .ok false) :
    IsOpen (Open a e s).port = false
    ∧ (Open a e s).port.m_hComm = none
    ∧ (Open a e s).port.m_szWriteBuffer = none
    ∧ (Open a e s).port.m_Thread = none
    ∧ (Open a e s).port.m_bThreadAlive = false := by
  have hc := (Close_flags s hidle).2
  have hr := Open_configure_closeRequest a e (Close s) hc
  rw [Open_failed_port a e s hfail]
  have hrel := Close_released (Open_configure a e (Close s)).port
  have hfl := Close_flags (Open_configure a e (Close s)).port hr
  refine ⟨?_, hrel.1, hrel.2.1, hrel.2.2, hfl.1⟩
  unfold IsOpen
  rw [hrel.1]
  rfl

/-- Each of the steps of `Open` can fail with `Open` returning failure. -/
theorem Open_fails_at_each_step :
    ∀ k ∈ [0, 1, 2, 3, 4, 5, 6, 7, 8],
      (Open (portArgs ONESTOPBIT 16) (failAt k) (openedSession TWOSTOPBITS 4)).result
        = .ok false := by
  intro k hk
  simp only [List.mem_cons, List.mem_singleton, List.not_mem_nil, or_false] at hk
  rcases hk with h | h | h | h | h | h | h | h | h <;> subst h <;> rfl

/-- C3, witness: `Open` on an open session whose worker runs, on a system
where the buffer allocation fails, where `SetCommState` fails and where the
worker cannot be started, returns failure and leaves no handle, no buffer,
no thread handle and no live worker. -/
theorem Open_failure_rolls_back_witness :
    (openedSession TWOSTOPBITS 4).m_bThreadAlive = true
    ∧ IsOpen (openedSession TWOSTOPBITS 4) = true
    ∧ ((Open (portArgs ONESTOPBIT 16) (failAt 0) (openedSession TWOSTOPBITS 4)).result = .ok false
      ∧ IsOpen (Open (portArgs ONESTOPBIT 16) (failAt 0) (openedSession TWOSTOPBITS 4)).port = false
      ∧ (Open (portArgs ONESTOPBIT 16) (failAt 0)
            (openedSession TWOSTOPBITS 4)).port.m_bThreadAlive = false)
    ∧ ((Open (portArgs ONESTOPBIT 16) (failAt 5) (openedSession TWOSTOPBITS 4)).result = .ok false
      ∧ IsOpen (Open (portArgs ONESTOPBIT 16) (failAt 5) (openedSession TWOSTOPBITS 4)).port = false
      ∧ (Open (portArgs ONESTOPBIT 16) (failAt 5)
            (openedSession TWOSTOPBITS 4)).port.m_szWriteBuffer = none)
    ∧ ((Open (portArgs ONESTOPBIT 16) (failAt 8) (openedSession TWOSTOPBITS 4)).result = .ok false
      ∧ IsOpen (Open (portArgs ONESTOPBIT 16) (failAt 8) (openedSession TWOSTOPBITS 4)).port = false
      ∧ (Open (portArgs ONESTOPBIT 16) (failAt 8)
            (openedSession TWOSTOPBITS 4)).port.m_Thread = none) :=
  ⟨rfl, rfl,
   ⟨rfl, (Open_failure_rolls_back (portArgs ONESTOPBIT 16) (failAt 0)
            (openedSession TWOSTOPBITS 4) rfl rfl).1,
         (Open_failure_rolls_back (portArgs ONESTOPBIT 16) (failAt 0)
            (openedSession TWOSTOPBITS 4) rfl rfl).2.2.2.2⟩,
   ⟨rfl, (Open_failure_rolls_back (portArgs ONESTOPBIT 16) (failAt 5)
            (openedSession TWOSTOPBITS 4) rfl rfl).1,
         (Open_failure_rolls_back (portArgs ONESTOPBIT 16) (failAt 5)
            (openedSession TWOSTOPBITS 4) rfl rfl).2.2.1⟩,
   ⟨rfl, (Open_failure_rolls_back (portArgs ONESTOPBIT 16) (failAt 8)
            (openedSession TWOSTOPBITS 4) rfl rfl).1,
         (Open_failure_rolls_back (portArgs ONESTOPBIT 16) (failAt 8)
            (openedSession TWOSTOPBITS 4) rfl rfl).2.2.2.1⟩⟩

/-- C4: `Close` is idempotent. For every session state and every `N >= 1`
the state after `N` consecutive calls of `Close` is the state after one call,
and a second call changes nothing. After `Close` the handle is invalid, the
buffer and the thread handle are released; the worker is not alive and the
close-request flag is cleared whenever no close request was already pending
when `Close` was called. -/
theorem Close_idempotent (s : Session) (N : Nat) (hN : 1 ≤ N) :
    closeN N s = Close s
    ∧ Close (Close s) = Close s
    ∧ (Close s).m_hComm = none
    ∧ (Close s).m_szWriteBuffer = none
    ∧ (Close s).m_Thread = none
    ∧ (s.m_bUserRequestClose = false →
        (Close s).m_bThreadAlive = false ∧ (Close s).m_bUserRequestClose = false) := by
  obtain ⟨n, rfl⟩ : ∃ n, N = n + 1 := ⟨N - 1, by omega⟩
  have hrel := Close_released s
  exact ⟨closeN_succ n s, Close_Close s, hrel.1, hrel.2.1, hrel.2.2, Close_flags s⟩

/-- C4, witness: three calls of `Close` on an open session whose worker runs
leave the state one call leaves, with the worker stopped. -/
theorem Close_idempotent_witness :
    closeN 3 (openedSession ONESTOPBIT 4) = Close (openedSession ONESTOPBIT 4)
    ∧ (Close (openedSession ONESTOPBIT 4)).m_bThreadAlive = false
    ∧ (openedSession ONESTOPBIT 4).m_bThreadAlive = true :=
  ⟨(Close_idempotent (openedSession ONESTOPBIT 4) 3 (by decide)).1,
   ((Close_idempotent (openedSession ONESTOPBIT 4) 3 (by decide)).2.2.2.2.2 rfl).1, rfl⟩

/-! ## The trace -/

theorem posted_append (a b : List Event) : posted (a ++ b) = posted a ++ posted b := by
  induction a with
  | nil => rfl
  | cons e rest ih => cases e <;> simp [posted, ih]

theorem osWrites_append (a b : List Event) : osWrites (a ++ b) = osWrites a ++ osWrites b := by
  induction a with
  | nil => rfl
  | cons e rest ih => cases e <;> simp [osWrites, ih]

theorem osReads_append (a b : List Event) : osReads (a ++ b) = osReads a ++ osReads b := by
  induction a with
  | nil => rfl
  | cons e rest ih => cases e <;> simp [osReads, ih]

theorem boxes_append (a b : List Event) : boxes (a ++ b) = boxes a ++ boxes b := by
  induction a with
  | nil => rfl
  | cons e rest ih => cases e <;> simp [boxes, ih]

theorem rxPosted_append (a b : List Event) : rxPosted (a ++ b) = rxPosted a ++ rxPosted b := by
  induction a with
  | nil => rfl
  | cons e rest ih =>
    cases e with
    | postMessage h wp lp =>
      by_cases hw : wp = EV_RXCHAR <;> simp [rxPosted, ih, hw]
    | writeFile _ _ => simp [rxPosted, ih]
    | readFile _ => simp [rxPosted, ih]
    | messageBox _ _ => simp [rxPosted, ih]

theorem txPosted_append (a b : List Event) : txPosted (a ++ b) = txPosted a ++ txPosted b := by
  induction a with
  | nil => rfl
  | cons e rest ih =>
    cases e with
    | postMessage h wp lp =>
      by_cases hw : wp = EV_TXEMPTY <;> simp [txPosted, ih, hw]
    | writeFile _ _ => simp [txPosted, ih]
    | readFile _ => simp [txPosted, ih]
    | messageBox _ _ => simp [txPosted, ih]

/-- `ProcessErrorMessage` shows at most one message box and does nothing else
that is visible. -/
theorem ProcessErrorMessage_events (text : ErrorText) (e : ErrInfo) :
    (ProcessErrorMessage text e).1 = []
    ∨ (ProcessErrorMessage text e).1 = [Event.messageBox text e.dwError] := by
  unfold ProcessErrorMessage
  by_cases h1 : e.formatted = true
  · by_cases h2 : e.lpMsgBuf = true
    · by_cases h3 : e.Temp = true
      · right; simp only [h1, h2, h3, if_true]; split <;> rfl
      · left; simp only [h1, h2, h3, if_true]; split <;> simp
    · left; simp only [h1, h2, if_true]; split <;> simp
  · left; simp [h1]

theorem ProcessErrorMessage_fault (text : ErrorText) (e : ErrInfo) :
    (ProcessErrorMessage text e).2
      = if e.formatted = true ∧ e.dwError ≠ ERROR_SUCCESS then some (.assertion 252) else none := by
  unfold ProcessErrorMessage
  by_cases h1 : e.formatted = true
  · by_cases h2 : e.dwError = ERROR_SUCCESS <;> simp [h1, h2]
  · simp [h1]

theorem ProcessErrorMessage_silent (text : ErrorText) (e : ErrInfo) :
    posted (ProcessErrorMessage text e).1 = []
    ∧ osWrites (ProcessErrorMessage text e).1 = []
    ∧ osReads (ProcessErrorMessage text e).1 = []
    ∧ rxPosted (ProcessErrorMessage text e).1 = []
    ∧ txPosted (ProcessErrorMessage text e).1 = []
    ∧ (boxes (ProcessErrorMessage text e).1).length ≤ 1 := by
  rcases ProcessErrorMessage_events text e with h | h <;> rw [h] <;>
    simp [posted, osWrites, osReads, rxPosted, txPosted, boxes]

/-! ## ReceiveChar -/

/-- What one call of `ReceiveChar` does: it consumes a prefix of the coming
read results, appends to the trace, issues no `WriteFile`, posts no
`EV_TXEMPTY`, and posts exactly the bytes of the consumed reads as
`EV_RXCHAR`, in order. -/
theorem ReceiveChar_loop_spec (s : Session) (owner : Option Nat) (reads : List ReadResult) :
    ∀ t : List Event, ∃ consumed added,
      reads = consumed ++ (ReceiveChar_loop s owner reads t).1
      ∧ (ReceiveChar_loop s owner reads t).2.1 = t ++ added
      ∧ osWrites added = [] ∧ txPosted added = []
      ∧ rxPosted added = deviceBytes consumed := by
  induction reads with
  | nil =>
    intro t
    unfold ReceiveChar_loop
    by_cases ha : s.m_bThreadAlive = true
    · by_cases hc : s.m_bUserRequestClose = true
      · exact ⟨[], [], by simp [ha, hc], by simp [ha, hc], rfl, rfl, rfl⟩
      · exact ⟨[], [Event.readFile readTimeout], by simp [ha, hc], by simp [ha, hc],
          rfl, rfl, rfl⟩
    · exact ⟨[], [], by simp [ha], by simp [ha], rfl, rfl, rfl⟩
  | cons r rest ih =>
    intro t
    unfold ReceiveChar_loop
    by_cases ha : s.m_bThreadAlive = true
    · by_cases hc : s.m_bUserRequestClose = true
      · exact ⟨[], [], by simp [ha, hc], by simp [ha, hc], rfl, rfl, rfl⟩
      · by_cases hb : (r.bResult && decide (r.BytesRead > 0) && decide (r.BytesRead ≤ 1)) = true
        · obtain ⟨c, a, h1, h2, h3, h4, h5⟩ :=
            ih (t ++ [Event.readFile r] ++ [Event.postMessage owner EV_RXCHAR r.RXBuff])
          have hbyte : r.bResult = true ∧ r.BytesRead = 1 := by
            simp only [Bool.and_eq_true, decide_eq_true_eq] at hb
            exact ⟨hb.1.1, by omega⟩
          refine ⟨r :: c, [Event.readFile r, Event.postMessage owner EV_RXCHAR r.RXBuff] ++ a,
            ?_, ?_, ?_, ?_, ?_⟩
          · simp only [ha, hc, hb, Bool.not_true, Bool.false_eq_true, if_false, if_true,
              List.cons_append]
            rw [← h1]
          · simp only [ha, hc, hb, Bool.not_true, Bool.false_eq_true, if_false, if_true]
            rw [h2]; simp
          · rw [osWrites_append, h3]; rfl
          · rw [txPosted_append, h4]; simp [txPosted, EV_RXCHAR, EV_TXEMPTY]
          · rw [rxPosted_append, h5]
            simp [rxPosted, deviceBytes, hbyte]
        · have hnb : ¬ (r.bResult = true ∧ r.BytesRead = 1) := by
            intro hh
            apply hb
            simp [hh.1, hh.2]
          by_cases hd : ((!r.bResult) && decide (ERROR_ACCESS_DENIED = r.err.dwError)) = true
          · have hs := ProcessErrorMessage_silent .ReadFile r.err
            refine ⟨[r], [Event.readFile r] ++ (ProcessErrorMessage .ReadFile r.err).1,
              ?_, ?_, ?_, ?_, ?_⟩
            · simp only [ha, hc, hb, hd, Bool.not_true, Bool.false_eq_true, if_false, if_true]
              split <;> rfl
            · simp only [ha, hc, hb, hd, Bool.not_true, Bool.false_eq_true, if_false, if_true]
              split <;> (rename_i heq; simp [heq])
            · rw [osWrites_append, hs.2.1]; rfl
            · rw [txPosted_append, hs.2.2.2.2.1]; rfl
            · rw [rxPosted_append, hs.2.2.2.1]; simp [rxPosted, deviceBytes, hnb]
          · refine ⟨[r], [Event.readFile r], ?_, ?_, rfl, rfl, ?_⟩
            · simp only [ha, hc, hb, hd, Bool.not_true, Bool.false_eq_true, if_false, if_true]
              rfl
            · simp only [ha, hc, hb, hd, Bool.not_true, Bool.false_eq_true, if_false, if_true]
            · simp [rxPosted, deviceBytes, hnb]
    · exact ⟨[], [], by simp [ha], by simp [ha], rfl, rfl, rfl⟩

theorem ReceiveChar_spec (w : World) :
    ∃ consumed added,
      w.reads = consumed ++ (ReceiveChar w).1.reads
      ∧ (ReceiveChar w).1.trace = w.trace ++ added
      ∧ osWrites added = [] ∧ txPosted added = []
      ∧ rxPosted added = deviceBytes consumed
      ∧ (ReceiveChar w).1.port = w.port := by
  obtain ⟨c, a, h1, h2, h3, h4, h5⟩ :=
    ReceiveChar_loop_spec w.port w.port.m_pOwner w.reads w.trace
  refine ⟨c, a, ?_, ?_, h3, h4, h5, ?_⟩
  · unfold ReceiveChar
    rcases hres : ReceiveChar_loop w.port w.port.m_pOwner w.reads w.trace with ⟨rd, t, f, ret⟩
    rw [hres] at h1
    cases f <;> simpa using h1
  · unfold ReceiveChar
    rcases hres : ReceiveChar_loop w.port w.port.m_pOwner w.reads w.trace with ⟨rd, t, f, ret⟩
    rw [hres] at h2
    cases f <;> simpa using h2
  · unfold ReceiveChar
    rcases hres : ReceiveChar_loop w.port w.port.m_pOwner w.reads w.trace with ⟨rd, t, f, ret⟩
    cases f <;> rfl

/-! ## WriteChar and one pass of the worker -/

theorem WriteChar_failure (wr : WriteResult) (w : World) (hfail : wr.bResult = false) :
    (WriteChar wr w).2 = EOF_UINT
    ∧ (WriteChar wr w).1.trace
        = w.trace ++ [Event.writeFile (queued w.port) (toUInt32 w.port.m_nWriteSize)]
            ++ (ProcessErrorMessage .WriteFile wr.err).1
    ∧ (WriteChar wr w).1.reads = w.reads
    ∧ ((ProcessErrorMessage .WriteFile wr.err).2 = none →
        (WriteChar wr w).1.fault = w.fault
        ∧ (WriteChar wr w).1.port = { w.port with m_nWriteSize := 0 })
    ∧ (∀ f, (ProcessErrorMessage .WriteFile wr.err).2 = some f →
        (WriteChar wr w).1.fault = some f) := by
  unfold WriteChar WriteChar_unlocked WriteChar_locked
  simp only [hfail, Bool.not_false, if_true]
  rcases hp : ProcessErrorMessage .WriteFile wr.err with ⟨ev, f⟩
  cases f <;> simp

theorem CommThread_left_stopped (w : World) (h : w.port.m_bThreadAlive = false) :
    CommThread_left w = w := by
  unfold CommThread_left CommThread_exit
  rcases w with ⟨p, rd, t, f⟩
  rcases p with ⟨a1, a2, a3, a4, a5, a6, a7, a8, a9, a10, a11, a12⟩
  simp only at h
  subst h
  rfl

/-- A worker that has left its loop, or a process ended by a fault, does
nothing in any further pass. -/
theorem CommThread_pass_stopped (wr : WriteResult) (w : World)
    (h : w.fault ≠ none ∨ w.port.m_bThreadAlive = false) :
    CommThread_pass wr w = (w, false) := by
  unfold CommThread_pass
  by_cases hf : w.fault.isSome = true
  · simp [hf]
  · have hnone : w.fault = none := by
      cases hw : w.fault with
      | none => rfl
      | some f => rw [hw] at hf; simp at hf
    rcases h with h | h
    · exact absurd hnone h
    · simp [hf, h, CommThread_left_stopped w h]

/-- C7, counterexample: the queue holds 3 bytes and the `WriteFile` fails.
(1) When `FormatMessage` does not render the error, the worker leaves its
loop with nothing posted to the owner and no message box shown. (2) When it
renders the error, a message box is shown and the `assert` of line 252 ends
the process; nothing is posted to the owner. -/
theorem write_failure_posts_nothing :
    (posted (CommThread_pass { bResult := false, Sent := 0, err := noError }
              queuedWorld).1.trace = []
      ∧ boxes (CommThread_pass { bResult := false, Sent := 0, err := noError }
              queuedWorld).1.trace = []
      ∧ (CommThread_pass { bResult := false, Sent := 0, err := noError }
              queuedWorld).1.port.m_bThreadAlive = false
      ∧ (CommThread_pass { bResult := false, Sent := 0, err := noError }
              queuedWorld).1.fault = none)
    ∧ (posted (CommThread_pass { bResult := false, Sent := 0, err := renderedError 31 }
              queuedWorld).1.trace = []
      ∧ boxes (CommThread_pass { bResult := false, Sent := 0, err := renderedError 31 }
              queuedWorld).1.trace = [(ErrorText.WriteFile, 31)]
      ∧ (CommThread_pass { bResult := false, Sent := 0, err := renderedError 31 }
              queuedWorld).1.fault = some (.assertion 252)) := by
  refine ⟨⟨rfl, rfl, rfl, rfl⟩, ⟨rfl, rfl, rfl⟩⟩

/-- C7, amended: in a pass of the worker in which the `WriteFile` of a
non-empty queue fails, the worker posts no message to the owner; it issues
that one `WriteFile` and no `ReadFile`, reports the failure through
`ProcessErrorMessage` (at most one message box) and, when that returns,
resets the queue length to 0 and leaves its loop (`m_bThreadAlive` becomes
false). No further pass happens: the write is not retried and no read
follows. -/
theorem CommThread_pass_write_failure (wr : WriteResult) (w : World)
    (hrun : w.fault = none) (halive : w.port.m_bThreadAlive = true)
    (hreq : w.port.m_bUserRequestClose = false)
    (hpos : w.port.m_nWriteSize > 0) (hfail : wr.bResult = false) :
    (CommThread_pass wr w).2 = false
    ∧ posted (CommThread_pass wr w).1.trace = posted w.trace
    ∧ osWrites (CommThread_pass wr w).1.trace
        = osWrites w.trace ++ [(queued w.port, toUInt32 w.port.m_nWriteSize)]
    ∧ osReads (CommThread_pass wr w).1.trace = osReads w.trace
    ∧ (CommThread_pass wr w).1.reads = w.reads
    ∧ (boxes (CommThread_pass wr w).1.trace).length ≤ (boxes w.trace).length + 1
    ∧ ((CommThread_pass wr w).1.fault = none →
        (CommThread_pass wr w).1.port.m_bThreadAlive = false
        ∧ (CommThread_pass wr w).1.port.m_nWriteSize = 0)
    ∧ (∀ wr2, CommThread_pass wr2 (CommThread_pass wr w).1 = ((CommThread_pass wr w).1, false)) := by
  obtain ⟨h1, h2, h3, h4, h5⟩ := WriteChar_failure wr w hfail
  have hs := ProcessErrorMessage_silent .WriteFile wr.err
  rcases hp : (ProcessErrorMessage .WriteFile wr.err).2 with _ | f
  · have h4' := h4 hp
    have hpass : CommThread_pass wr w = (CommThread_left (WriteChar wr w).1, false) := by
      unfold CommThread_pass
      rcases hw : WriteChar wr w with ⟨w1, sent⟩
      rw [hw] at h1 h4'
      simp only at h1 h4'
      have hf1 : w1.fault.isSome = false := by rw [h4'.1, hrun]; rfl
      simp [hrun, halive, hreq, hpos, hf1, h1, CommThread_sent]
    have hal : (CommThread_left (WriteChar wr w).1).port.m_bThreadAlive = false := rfl
    rw [hpass]
    refine ⟨rfl, ?_, ?_, ?_, ?_, ?_, ?_, ?_⟩
    · show posted (WriteChar wr w).1.trace = _
      rw [h2]; simp [posted_append, hs.1, posted]
    · show osWrites (WriteChar wr w).1.trace = _
      rw [h2]; simp [osWrites_append, hs.2.1, osWrites]
    · show osReads (WriteChar wr w).1.trace = _
      rw [h2]; simp [osReads_append, hs.2.2.1, osReads]
    · exact h3
    · show (boxes (WriteChar wr w).1.trace).length ≤ _
      rw [h2]; simp only [boxes_append, List.length_append]
      have := hs.2.2.2.2.2
      simp [boxes]; omega
    · intro _
      refine ⟨rfl, ?_⟩
      show (WriteChar wr w).1.port.m_nWriteSize = 0
      rw [h4'.2]
    · intro wr2
      exact CommThread_pass_stopped wr2 _ (Or.inr hal)
  · have h5' := h5 f hp
    have hpass : CommThread_pass wr w = ((WriteChar wr w).1, false) := by
      unfold CommThread_pass
      rcases hw : WriteChar wr w with ⟨w1, sent⟩
      rw [hw] at h5'
      simp only at h5'
      simp [hrun, halive, hreq, hpos, h5']
    rw [hpass]
    refine ⟨rfl, ?_, ?_, ?_, h3, ?_, ?_, ?_⟩
    · show posted (WriteChar wr w).1.trace = _
      rw [h2]; simp [posted_append, hs.1, posted]
    · show osWrites (WriteChar wr w).1.trace = _
      rw [h2]; simp [osWrites_append, hs.2.1, osWrites]
    · show osReads (WriteChar wr w).1.trace = _
      rw [h2]; simp [osReads_append, hs.2.2.1, osReads]
    · show (boxes (WriteChar wr w).1.trace).length ≤ _
      rw [h2]; simp only [boxes_append, List.length_append]
      have := hs.2.2.2.2.2
      simp [boxes]; omega
    · intro hnone
      simp only at hnone
      rw [h5'] at hnone
      exact absurd hnone (by simp)
    · intro wr2
      exact CommThread_pass_stopped wr2 _ (Or.inl (by simp only; rw [h5']; simp))

/-- C7, witness: with the bytes 1, 2, 3 queued and a failing `WriteFile`
the pass posts nothing, issues the one `WriteFile` and stops the worker. -/
theorem CommThread_pass_write_failure_witness :
    posted (CommThread_pass { bResult := false, Sent := 0, err := noError } queuedWorld).1.trace = []
    ∧ osWrites (CommThread_pass { bResult := false, Sent := 0, err := noError }
        queuedWorld).1.trace = [([1, 2, 3], 3)]
    ∧ (CommThread_pass { bResult := false, Sent := 0, err := noError }
        queuedWorld).1.port.m_bThreadAlive = false :=
  ⟨(CommThread_pass_write_failure { bResult := false, Sent := 0, err := noError } queuedWorld
      rfl rfl rfl (by decide) rfl).2.1,
   (CommThread_pass_write_failure { bResult := false, Sent := 0, err := noError } queuedWorld
      rfl rfl rfl (by decide) rfl).2.2.1,
   ((CommThread_pass_write_failure { bResult := false, Sent := 0, err := noError } queuedWorld
      rfl rfl rfl (by decide) rfl).2.2.2.2.2.2.1 rfl).1⟩

/-! ## A read that fails with access denied -/

theorem posted_rxEvents (owner : Option Nat) (pre : List ReadResult) :
    posted (rxEvents owner pre) = pre.map (fun p => (EV_RXCHAR, p.RXBuff)) := by
  induction pre with
  | nil => rfl
  | cons p rest ih => simp [rxEvents, posted, ih]

theorem osReads_rxEvents (owner : Option Nat) (pre : List ReadResult) :
    osReads (rxEvents owner pre) = pre := by
  induction pre with
  | nil => rfl
  | cons p rest ih => simp [rxEvents, osReads, ih]

theorem boxes_rxEvents (owner : Option Nat) (pre : List ReadResult) :
    boxes (rxEvents owner pre) = [] := by
  induction pre with
  | nil => rfl
  | cons p rest ih => simpa [rxEvents, boxes] using ih

theorem ReceiveChar_loop_denied (s : Session) (owner : Option Nat)
    (halive : s.m_bThreadAlive = true) (hreq : s.m_bUserRequestClose = false)
    (r : ReadResult) (rest : List ReadResult)
    (hfail : r.bResult = false) (hden : r.err.dwError = ERROR_ACCESS_DENIED)
    (pre : List ReadResult) (hpre : ∀ p ∈ pre, p.bResult = true ∧ p.BytesRead = 1) :
    ∀ t : List Event,
      ReceiveChar_loop s owner (pre ++ r :: rest) t
        = (rest, t ++ rxEvents owner pre ++ [Event.readFile r]
                   ++ (ProcessErrorMessage .ReadFile r.err).1,
           (ProcessErrorMessage .ReadFile r.err).2, false) := by
  induction pre with
  | nil =>
    intro t
    simp only [List.nil_append]
    unfold ReceiveChar_loop
    simp only [halive, hreq, hfail, hden, rxEvents, List.append_nil]
    rcases hp : ProcessErrorMessage .ReadFile r.err with ⟨ev, f⟩
    cases f <;> simp
  | cons p ps ih =>
    intro t
    have hp := hpre p (List.mem_cons_self _ _)
    have hps : ∀ q ∈ ps, q.bResult = true ∧ q.BytesRead = 1 :=
      fun q hq => hpre q (List.mem_cons_of_mem _ hq)
    simp only [List.cons_append]
    unfold ReceiveChar_loop
    simp only [halive, hreq, hp.1, hp.2]
    simp only [Bool.not_true, Bool.false_eq_true, if_false, Nat.lt_irrefl, gt_iff_lt,
      Nat.lt_one_iff, Nat.zero_lt_one, decide_True, Bool.and_self, le_refl, if_true,
      Nat.one_pos]
    rw [ih hps]
    simp [rxEvents, List.append_assoc]

/-- C8, counterexample: the worker runs on an empty queue and its read fails
with `ERROR_ACCESS_DENIED`. (1) When `FormatMessage` does not render the
error, the pass ends with nothing posted to the owner, no message box, and
the worker still alive and in its loop; the next pass performs further
reads (here delivering the byte 66). (2) When `FormatMessage` renders the
error, a message box is shown and the `assert` of line 252 ends the process;
nothing is posted to the owner and `m_bThreadAlive` is still true. -/
theorem read_denied_worker_goes_on :
    (posted (CommThread_pass (sentAll 0) (idleWorld [deniedRead, byteRead 66])).1.trace = []
      ∧ boxes (CommThread_pass (sentAll 0) (idleWorld [deniedRead, byteRead 66])).1.trace = []
      ∧ (CommThread_pass (sentAll 0) (idleWorld [deniedRead, byteRead 66])).2 = true
      ∧ (CommThread_pass (sentAll 0)
            (idleWorld [deniedRead, byteRead 66])).1.port.m_bThreadAlive = true
      ∧ osReads (CommThread_pass (sentAll 0) (idleWorld [deniedRead, byteRead 66])).1.trace
          = [deniedRead]
      ∧ osReads (CommThread [sentAll 0, sentAll 0] (idleWorld [deniedRead, byteRead 66])).trace
          = [deniedRead, byteRead 66, readTimeout]
      ∧ posted (CommThread [sentAll 0, sentAll 0] (idleWorld [deniedRead, byteRead 66])).trace
          = [(EV_RXCHAR, 66)])
    ∧ (posted (CommThread_pass (sentAll 0) (idleWorld [deniedReadShown])).1.trace = []
      ∧ boxes (CommThread_pass (sentAll 0) (idleWorld [deniedReadShown])).1.trace
          = [(ErrorText.ReadFile, ERROR_ACCESS_DENIED)]
      ∧ (CommThread_pass (sentAll 0) (idleWorld [deniedReadShown])).1.fault
          = some (.assertion 252)
      ∧ (CommThread_pass (sentAll 0) (idleWorld [deniedReadShown])).1.port.m_bThreadAlive
          = true) := by
  refine ⟨⟨rfl, rfl, rfl, rfl, rfl, rfl, rfl⟩, ⟨rfl, rfl, rfl, rfl⟩⟩

/-- C8, amended: when, in the `ReceiveChar` call of a worker pass, a
single-byte read fails with `ERROR_ACCESS_DENIED` (after any number of reads
of that call that delivered a byte), the worker posts no message to the
owner for the failure: it reports it through `ProcessErrorMessage` (at most
one message box) and `ReceiveChar` returns `FALSE` at once, performing no
further read in that call. -/
theorem ReceiveChar_access_denied (w : World) (pre rest : List ReadResult) (r : ReadResult)
    (halive : w.port.m_bThreadAlive = true) (hreq : w.port.m_bUserRequestClose = false)
    (hreads : w.reads = pre ++ r :: rest)
    (hpre : ∀ p ∈ pre, p.bResult = true ∧ p.BytesRead = 1)
    (hfail : r.bResult = false) (hden : r.err.dwError = ERROR_ACCESS_DENIED) :
    (ReceiveChar w).2 = false
    ∧ (ReceiveChar w).1.reads = rest
    ∧ (ReceiveChar w).1.trace
        = w.trace ++ rxEvents w.port.m_pOwner pre ++ [Event.readFile r]
            ++ (ProcessErrorMessage .ReadFile r.err).1
    ∧ posted (ReceiveChar w).1.trace
        = posted w.trace ++ pre.map (fun p => (EV_RXCHAR, p.RXBuff))
    ∧ osReads (ReceiveChar w).1.trace = osReads w.trace ++ pre ++ [r]
    ∧ osWrites (ReceiveChar w).1.trace = osWrites w.trace
    ∧ (boxes (ReceiveChar w).1.trace).length ≤ (boxes w.trace).length + 1 := by
  have hloop := ReceiveChar_loop_denied w.port w.port.m_pOwner halive hreq r rest hfail hden
    pre hpre w.trace
  have hs := ProcessErrorMessage_silent .ReadFile r.err
  have hret : (ReceiveChar w).2 = false := by
    unfold ReceiveChar
    rw [hreads, hloop]
    cases (ProcessErrorMessage .ReadFile r.err).2 <;> rfl
  have hrd : (ReceiveChar w).1.reads = rest := by
    unfold ReceiveChar
    rw [hreads, hloop]
    cases (ProcessErrorMessage .ReadFile r.err).2 <;> rfl
  have htr : (ReceiveChar w).1.trace
      = w.trace ++ rxEvents w.port.m_pOwner pre ++ [Event.readFile r]
          ++ (ProcessErrorMessage .ReadFile r.err).1 := by
    unfold ReceiveChar
    rw [hreads, hloop]
    cases (ProcessErrorMessage .ReadFile r.err).2 <;> rfl
  obtain ⟨c, a, -, h2, h3, -, -, -⟩ := ReceiveChar_spec w
  refine ⟨hret, hrd, htr, ?_, ?_, ?_, ?_⟩
  · rw [htr]
    simp [posted_append, hs.1, posted_rxEvents, posted]
  · rw [htr]
    simp [osReads_append, hs.2.2.1, osReads_rxEvents, osReads]
  · rw [h2, osWrites_append, h3]; simp
  · rw [htr]
    simp only [boxes_append, List.length_append]
    have := hs.2.2.2.2.2
    rw [boxes_rxEvents]
    simp [boxes]; omega

/-- C8, witness: the device delivers the byte 65 and then a read fails with
`ERROR_ACCESS_DENIED`; `ReceiveChar` posts the byte and nothing else,
returns `FALSE`, and leaves the following read result unread. -/
theorem ReceiveChar_access_denied_witness :
    (ReceiveChar (idleWorld [byteRead 65, deniedRead, byteRead 66])).2 = false
    ∧ (ReceiveChar (idleWorld [byteRead 65, deniedRead, byteRead 66])).1.reads = [byteRead 66]
    ∧ posted (ReceiveChar (idleWorld [byteRead 65, deniedRead, byteRead 66])).1.trace
        = [(EV_RXCHAR, 65)] :=
  ⟨(ReceiveChar_access_denied (idleWorld [byteRead 65, deniedRead, byteRead 66])
      [byteRead 65] [byteRead 66] deniedRead rfl rfl rfl (by decide) rfl rfl).1,
   (ReceiveChar_access_denied (idleWorld [byteRead 65, deniedRead, byteRead 66])
      [byteRead 65] [byteRead 66] deniedRead rfl rfl rfl (by decide) rfl rfl).2.1,
   (ReceiveChar_access_denied (idleWorld [byteRead 65, deniedRead, byteRead 66])
      [byteRead 65] [byteRead 66] deniedRead rfl rfl rfl (by decide) rfl rfl).2.2.2.1⟩

/-! ## Delivery of received bytes -/

theorem deviceBytes_append (a b : List ReadResult) :
    deviceBytes (a ++ b) = deviceBytes a ++ deviceBytes b := by
  induction a with
  | nil => rfl
  | cons r rest ih =>
    by_cases h : r.bResult = true ∧ r.BytesRead = 1 <;> simp [deviceBytes, h, ih]

theorem Delivers.same (w v : World) (hr : v.reads = w.reads)
    (ht : rxPosted v.trace = rxPosted w.trace) : Delivers w v :=
  ⟨[], by simp [hr], by simp [ht, deviceBytes]⟩

theorem Delivers.here (w : World) : Delivers w w := Delivers.same w w rfl rfl

theorem Delivers.trans {u v w : World} (h1 : Delivers u v) (h2 : Delivers v w) :
    Delivers u w := by
  obtain ⟨c1, hr1, ht1⟩ := h1
  obtain ⟨c2, hr2, ht2⟩ := h2
  refine ⟨c1 ++ c2, ?_, ?_⟩
  · rw [hr1, hr2, List.append_assoc]
  · rw [ht2, ht1, deviceBytes_append, List.append_assoc]

theorem ReceiveChar_delivers (w : World) : Delivers w (ReceiveChar w).1 := by
  obtain ⟨c, a, h1, h2, -, -, h5, -⟩ := ReceiveChar_spec w
  exact ⟨c, h1, by rw [h2, rxPosted_append, h5]⟩

theorem WriteChar_delivers (wr : WriteResult) (w : World) : Delivers w (WriteChar wr w).1 := by
  have hs := ProcessErrorMessage_silent .WriteFile wr.err
  apply Delivers.same
  · unfold WriteChar WriteChar_unlocked WriteChar_locked
    split
    · split <;> rfl
    · split <;> rfl
  · unfold WriteChar WriteChar_unlocked WriteChar_locked
    split
    · split <;> (rename_i heq; have h4 := hs.2.2.2.1; rw [heq] at h4;
                 simp [rxPosted_append, rxPosted, h4])
    · split <;> simp [rxPosted_append, rxPosted]

theorem CommThread_sent_delivers (w : World) (n : Nat) : Delivers w (CommThread_sent w n).1 := by
  apply Delivers.same
  · unfold CommThread_sent; split <;> rfl
  · unfold CommThread_sent
    split
    · simp [rxPosted_append, rxPosted, EV_TXEMPTY, EV_RXCHAR]
    · rfl

theorem CommThread_left_delivers (w : World) : Delivers w (CommThread_left w) :=
  Delivers.same _ _ rfl rfl

theorem CommThread_pass_delivers (wr : WriteResult) (w : World) :
    Delivers w (CommThread_pass wr w).1 := by
  unfold CommThread_pass
  split
  · exact Delivers.here w
  · split
    · exact CommThread_left_delivers w
    · split
      · exact CommThread_left_delivers w
      · split
        · have h1 := WriteChar_delivers wr w
          rcases hw : WriteChar wr w with ⟨w1, sent⟩
          rw [hw] at h1
          simp only
          split
          · exact h1
          · have h2 := CommThread_sent_delivers w1 sent
            rcases hs : CommThread_sent w1 sent with ⟨w2, b⟩
            rw [hs] at h2
            cases b
            · exact h1.trans (h2.trans (CommThread_left_delivers w2))
            · exact h1.trans (h2.trans (ReceiveChar_delivers w2))
        · exact ReceiveChar_delivers w

theorem Open_fail_events (text : ErrorText) (e : OpenEnv) (s : Session) :
    rxPosted (Open_fail text e s).events = [] := by
  have hs := (ProcessErrorMessage_silent text e.err).2.2.2.1
  unfold Open_fail
  split <;> (rename_i heq; rw [heq] at hs; exact hs)

theorem Open_start_events (e : OpenEnv) (s : Session) :
    rxPosted (Open_start e s).events = [] := by
  have hs := (ProcessErrorMessage_silent .CreateThread e.err).2.2.2.1
  unfold Open_start
  simp only []
  repeat' split
  all_goals first
    | rfl
    | apply Open_fail_events
    | (rename_i heq; rw [heq] at hs; exact hs)

theorem Open_configure_events (a : OpenArgs) (e : OpenEnv) (s : Session) :
    rxPosted (Open_configure a e s).events = [] := by
  unfold Open_configure
  simp only []
  repeat' split
  all_goals first
    | rfl
    | apply Open_fail_events
    | apply Open_start_events

theorem Open_events (a : OpenArgs) (e : OpenEnv) (s : Session) :
    rxPosted (Open a e s).events = [] := by
  unfold Open
  simp only []
  repeat' split
  all_goals first
    | rfl
    | apply Open_configure_events

theorem step_delivers (w : World) (act : Action) : Delivers w (step w act) := by
  unfold step
  split
  · exact Delivers.here w
  · cases act with
    | callOpen a e =>
      apply Delivers.same
      · rfl
      · simp [rxPosted_append, Open_events]
    | callWrite Buffer nSize =>
      simp only
      split <;> exact Delivers.same _ _ rfl rfl
    | callWriteString Buffer =>
      simp only
      split <;> exact Delivers.same _ _ rfl rfl
    | workerPass wr => exact CommThread_pass_delivers wr w
    | callClose => exact Delivers.same _ _ rfl rfl

theorem run_delivers (acts : List Action) : ∀ w : World, Delivers w (run w acts) := by
  induction acts with
  | nil => intro w; exact Delivers.here w
  | cons act rest ih =>
    intro w
    exact (step_delivers w act).trans (ih (step w act))

theorem CommThread_delivers (wrs : List WriteResult) : ∀ w : World, Delivers w (CommThread wrs w) := by
  induction wrs with
  | nil => intro w; exact Delivers.here w
  | cons wr rest ih =>
    intro w
    have h1 := CommThread_pass_delivers wr w
    unfold CommThread
    rcases hp : CommThread_pass wr w with ⟨w1, b⟩
    rw [hp] at h1
    cases b
    · exact h1
    · exact h1.trans (ih w1)

/-- C9: whatever the worker and the callers do (any sequence of `Open`,
`Write`, worker passes and `Close`, and any run of the worker thread itself),
whatever the results of the reads, the writes and the system calls, the
bytes of the `EV_RXCHAR` messages posted to the owner are exactly the bytes
the device read returned to the worker (one per successful one-byte read),
in the same order: none is dropped, duplicated or reordered. -/
theorem rx_notifications_are_device_bytes (w : World) :
    (∀ acts : List Action, ∃ consumed : List ReadResult,
        w.reads = consumed ++ (run w acts).reads
        ∧ rxPosted (run w acts).trace = rxPosted w.trace ++ deviceBytes consumed)
    ∧ (∀ wrs : List WriteResult, ∃ consumed : List ReadResult,
        w.reads = consumed ++ (CommThread wrs w).reads
        ∧ rxPosted (CommThread wrs w).trace = rxPosted w.trace ++ deviceBytes consumed) :=
  ⟨fun acts => run_delivers acts w, fun wrs => CommThread_delivers wrs w⟩

/-- The bytes 97, 98, 99 arrive with a time-out and a failed read between
them while a caller writes; the worker posts 97, 98, 99 and has consumed
every read result. -/
theorem rx_order_example :
    rxPosted (run (idleWorld [byteRead 97, readTimeout, byteRead 98, deniedRead, byteRead 99])
        [.workerPass (sentAll 0), .callWrite (some [1, 2]) 2, .workerPass (sentAll 2),
         .workerPass (sentAll 0)]).trace = [97, 98, 99]
    ∧ (run (idleWorld [byteRead 97, readTimeout, byteRead 98, deniedRead, byteRead 99])
        [.workerPass (sentAll 0), .callWrite (some [1, 2]) 2, .workerPass (sentAll 2),
         .workerPass (sentAll 0)]).reads = []
    ∧ outbound (run (idleWorld [byteRead 97, readTimeout, byteRead 98, deniedRead, byteRead 99])
        [.workerPass (sentAll 0), .callWrite (some [1, 2]) 2, .workerPass (sentAll 2),
         .workerPass (sentAll 0)]).trace = [1, 2] := by
  refine ⟨rfl, rfl, rfl⟩

/-! ## The write queue across Close and Open -/

/-- C5, failing run: a freshly constructed session is opened with a buffer of
8 bytes, 5 bytes are written, the session is closed before the worker has
run and opened again with a buffer of 4 bytes. Neither `Close` nor `Open`
resets `m_nWriteSize`: the session is open with capacity 4 and length 5, the
invariant `0 <= length <= capacity` is broken, and the next pass of the
worker asks `WriteFile` for 5 bytes of the 4-byte buffer. -/
theorem reopen_keeps_stale_length :
    (run (freshWorld zeroSession []) reopenSmaller).fault = none
    ∧ IsOpen (run (freshWorld zeroSession []) reopenSmaller).port = true
    ∧ (run (freshWorld zeroSession []) reopenSmaller).port.m_szWriteBuffer = some [0, 0, 0, 0]
    ∧ (run (freshWorld zeroSession []) reopenSmaller).port.m_nWriteBufferSize = 4
    ∧ (run (freshWorld zeroSession []) reopenSmaller).port.m_nWriteSize = 5
    ∧ ¬ queueInvariant (run (freshWorld zeroSession []) reopenSmaller).port
    ∧ osWrites (run (freshWorld zeroSession [])
        (reopenSmaller ++ [.workerPass (sentAll 5)])).trace = [([0, 0, 0, 0], 5)] := by
  refine ⟨rfl, rfl, rfl, rfl, rfl, by decide, rfl⟩

/-! ## Two callers and the worker -/

/-- C10, failing schedule: caller A writes `[1, 2]`, the worker hands them to
`WriteFile` and releases the lock, caller B writes `[3, 4]` (appended behind
the bytes already sent, `m_nWriteSize` becomes 4), then the worker continues
after the lock: its `assert (Sent == m_nWriteSize)` of line 276 fails. The
bytes of caller B never reach the device. With the two callers in turn the
outbound stream is `[1, 2, 3, 4]`. -/
theorem write_after_unlock_is_lost :
    outbound (race { world := idleWorld [], pending := none }
        writeBetweenUnlockAndReset).world.trace = [1, 2]
    ∧ (race { world := idleWorld [], pending := none }
        writeBetweenUnlockAndReset).world.port.m_nWriteSize = 4
    ∧ (race { world := idleWorld [], pending := none }
        writeBetweenUnlockAndReset).world.fault = some (.assertion 276)
    ∧ outbound (race { world := idleWorld [], pending := none } writesInTurn).world.trace
        = [1, 2, 3, 4] := by
  refine ⟨rfl, rfl, rfl, rfl⟩

/-- The steps of the interleaving compose to the worker's pass: on a
non-empty queue, `workerWriteFile` followed by `workerAfterUnlock` does what
`WriteChar` and lines 204-211 of `CommThread` do. -/
theorem race_steps_are_WriteChar (wr : WriteResult) (w : World)
    (hrun : w.fault = none) (halive : w.port.m_bThreadAlive = true)
    (hreq : w.port.m_bUserRequestClose = false) (hpos : w.port.m_nWriteSize > 0) :
    (race { world := w, pending := none } [.workerWriteFile wr, .workerAfterUnlock]).world
      = (if (WriteChar wr w).1.fault.isSome then (WriteChar wr w).1
         else
           match CommThread_sent (WriteChar wr w).1 (WriteChar wr w).2 with
           | (w2, true) => w2
           | (w2, false) => CommThread_left w2) := by
  simp only [race, List.foldl, raceStep, hrun, halive, hreq, hpos, WriteChar]
  simp only [Option.isSome_none, Bool.false_eq_true, if_false, Bool.not_true, if_true]
  generalize WriteChar_unlocked wr (WriteChar_locked w) = p
  rcases p with ⟨w1, sent⟩
  by_cases hf : w1.fault.isSome = true
  · simp [hf]
  · simp only [hf, if_false]
    generalize CommThread_sent w1 sent = q
    rcases q with ⟨w2, b⟩
    cases b <;> rfl

/-! ## The close request flag between operations -/

theorem Write_closeRequest (s : Session) (Buffer : Option (List Nat)) (nSize : Int) :
    (Write s Buffer nSize).2.m_bUserRequestClose = s.m_bUserRequestClose := by
  unfold Write
  simp only []
  repeat' split
  all_goals rfl

theorem WriteString_closeRequest (s : Session) (Buffer : Option (List Nat)) :
    (WriteString s Buffer).2.m_bUserRequestClose = s.m_bUserRequestClose := by
  unfold WriteString
  simp only []
  repeat' split
  all_goals rfl

theorem Open_closeRequest (a : OpenArgs) (e : OpenEnv) (s : Session)
    (h : s.m_bUserRequestClose = false) :
    (Open a e s).port.m_bUserRequestClose = false := by
  have hc := (Close_flags s h).2
  have hr := Open_configure_closeRequest a e (Close s) hc
  unfold Open
  simp only []
  repeat' split
  all_goals first
    | exact hc
    | exact hr
    | exact (Close_flags _ hr).2

theorem WriteChar_closeRequest (wr : WriteResult) (w : World) :
    (WriteChar wr w).1.port.m_bUserRequestClose = w.port.m_bUserRequestClose := by
  unfold WriteChar WriteChar_unlocked WriteChar_locked
  simp only []
  repeat' split
  all_goals rfl

theorem CommThread_pass_closeRequest (wr : WriteResult) (w : World) :
    (CommThread_pass wr w).1.port.m_bUserRequestClose = w.port.m_bUserRequestClose := by
  unfold CommThread_pass
  split
  · rfl
  · split
    · rfl
    · split
      · rfl
      · split
        · have h1 := WriteChar_closeRequest wr w
          rcases hw : WriteChar wr w with ⟨w1, sent⟩
          rw [hw] at h1
          simp only at h1 ⊢
          split
          · exact h1
          · have h2 : (CommThread_sent w1 sent).1.port = w1.port := by
              unfold CommThread_sent; split <;> rfl
            rcases hs : CommThread_sent w1 sent with ⟨w2, b⟩
            rw [hs] at h2
            simp only at h2
            cases b
            · show w2.port.m_bUserRequestClose = _
              rw [h2]; exact h1
            · obtain ⟨_, _, -, -, -, -, -, h6⟩ := ReceiveChar_spec w2
              simp only
              rw [h6, h2]; exact h1
        · obtain ⟨_, _, -, -, -, -, -, h6⟩ := ReceiveChar_spec w
          simp only
          rw [h6]

theorem step_closeRequest (w : World) (act : Action) (h : w.port.m_bUserRequestClose = false) :
    (step w act).port.m_bUserRequestClose = false := by
  unfold step
  split
  · exact h
  · cases act with
    | callOpen a e => exact Open_closeRequest a e w.port h
    | callWrite Buffer nSize =>
      have := Write_closeRequest w.port Buffer nSize
      simp only
      split <;> (rename_i heq; rw [heq] at this; simp only at this ⊢; rw [this]; exact h)
    | callWriteString Buffer =>
      have := WriteString_closeRequest w.port Buffer
      simp only
      split <;> (rename_i heq; rw [heq] at this; simp only at this ⊢; rw [this]; exact h)
    | workerPass wr => simp only; rw [CommThread_pass_closeRequest]; exact h
    | callClose => exact (Close_flags w.port h).2

/-- In every state reached from a freshly constructed session by `Open`,
`Write`, worker passes and `Close`, no close request is pending. -/
theorem run_closeRequest_clear (raw : Session) (reads : List ReadResult) (acts : List Action) :
    (run (freshWorld raw reads) acts).port.m_bUserRequestClose = false := by
  have gen : ∀ (acts : List Action) (w : World), w.port.m_bUserRequestClose = false →
      (run w acts).port.m_bUserRequestClose = false := by
    intro acts
    induction acts with
    | nil => intro w h; exact h
    | cons act rest ih => intro w h; exact ih (step w act) (step_closeRequest w act h)
  exact gen acts _ rfl

/-! ## The string overload of Write: where the copy writes -/

theorem overwrite_length (buf mid : List Nat) (L : Nat) (hin : L + mid.length ≤ buf.length) :
    (buf.take L ++ mid ++ buf.drop (L + mid.length)).length = buf.length := by
  simp only [List.length_append, List.length_take, List.length_drop]
  omega

theorem overwrite_take (buf mid rest : List Nat) (L : Nat) (hL : L ≤ buf.length) :
    (buf.take L ++ mid ++ rest).take L = buf.take L := by
  have hl : (buf.take L).length = L := by simp [List.length_take, Nat.min_eq_left hL]
  rw [List.append_assoc, List.take_append_eq_append_take, hl]
  simp [List.take_take]

theorem overwrite_outside (buf mid : List Nat) (L i : Nat)
    (hin : L + mid.length ≤ buf.length) (hout : i < L ∨ L + mid.length ≤ i) :
    (buf.take L ++ mid ++ buf.drop (L + mid.length))[i]? = buf[i]? := by
  have hl : (buf.take L).length = L := by
    simp [List.length_take]; omega
  rcases hout with h | h
  · rw [List.append_assoc, List.getElem?_append_left (by omega)]
    rw [List.getElem?_take]
    simp [h]
  · rw [List.getElem?_append_right (by simp [List.length_append, hl]; omega)]
    simp only [List.length_append, hl, List.getElem?_drop]
    congr 1
    omega

theorem overwrite_inside (buf mid : List Nat) (L k : Nat)
    (hin : L + mid.length ≤ buf.length) (hk : k < mid.length) :
    (buf.take L ++ mid ++ buf.drop (L + mid.length))[L + k]? = mid[k]? := by
  have hl : (buf.take L).length = L := by
    simp [List.length_take]; omega
  rw [List.append_assoc, List.getElem?_append_right (by omega), hl]
  rw [List.getElem?_append_left (by omega)]
  congr 1
  omega

theorem mem_strcpyWrites (off : Int) (src : List Nat) (i : Int) :
    i ∈ strcpyWrites off src ↔ ∃ k : Nat, k ≤ strlen src ∧ i = off + (k : Int) := by
  unfold strcpyWrites
  simp only [List.mem_map, List.mem_range]
  constructor
  · intro h
    obtain ⟨k, hk, hki⟩ := h
    exact ⟨k, by omega, hki.symm⟩
  · intro h
    obtain ⟨k, hk, hki⟩ := h
    exact ⟨k, by omega, hki.symm⟩

/-- The copy stays inside the array exactly when every index it writes is an
index of the array: otherwise `strcpy` is an access outside it. -/
theorem strcpy_inside_iff (dst src : List Nat) (off : Int) :
    strcpy dst off src ≠ none
      ↔ ∀ i ∈ strcpyWrites off src, 0 ≤ i ∧ i < (dst.length : Int) := by
  have hlen : ((src.takeWhile (fun c => c != 0) ++ [0]).length : Int) = (strlen src : Int) + 1 := by
    simp [strlen]
  unfold strcpy memcpy
  constructor
  · intro h i hi
    obtain ⟨k, hk, rfl⟩ := (mem_strcpyWrites off src i).mp hi
    by_cases hc : 0 ≤ off ∧ (0 : Int) ≤ (strlen src : Int) + 1
        ∧ off + ((strlen src : Int) + 1) ≤ dst.length
        ∧ (strlen src : Int) + 1 ≤ (src.takeWhile (fun c => c != 0) ++ [0]).length
    · obtain ⟨h0, -, h2, -⟩ := hc
      constructor <;> omega
    · rw [if_neg hc] at h
      exact absurd rfl h
  · intro h
    have h0 := h off ((mem_strcpyWrites off src off).mpr ⟨0, by omega, by simp⟩)
    have hn := h (off + (strlen src : Int))
      ((mem_strcpyWrites off src _).mpr ⟨strlen src, le_refl _, rfl⟩)
    rw [if_pos ⟨h0.1, by omega, by omega, by omega⟩]
    simp

theorem takeWhile_getElem? (p : Nat → Bool) (l : List Nat) (k : Nat)
    (hk : k < (l.takeWhile p).length) : (l.takeWhile p)[k]? = l[k]? := by
  induction l generalizing k with
  | nil => simp at hk
  | cons a rest ih =>
    by_cases ha : p a = true
    · rw [List.takeWhile_cons_of_pos ha] at hk ⊢
      cases k with
      | zero => simp
      | succ j =>
        simp only [List.length_cons] at hk
        simpa using ih j (by omega)
    · rw [List.takeWhile_cons_of_neg ha] at hk
      simp at hk

theorem WriteString_copies (s : Session) (buf src : List Nat) (L : Nat)
    (hopen : s.m_hComm ≠ none) (hbuf : s.m_szWriteBuffer = some buf)
    (hsize : buf.length = s.m_nWriteBufferSize)
    (hlen : s.m_nWriteSize = (L : Int)) (hne : 0 < strlen src)
    (hcap : s.m_nWriteBufferSize < 2147483648)
    (hfit : L + strlen src < s.m_nWriteBufferSize) :
    WriteString s (some src)
      = (ttlOf s.m_dcb ((L : Int) + strlen src),
         { s with m_szWriteBuffer :=
                    some (buf.take L ++ (src.takeWhile (fun c => c != 0) ++ [0])
                          ++ buf.drop (L + (src.takeWhile (fun c => c != 0) ++ [0]).length)),
                  m_nWriteSize := (L : Int) + strlen src }) := by
  have hmid : (src.takeWhile (fun c => c != 0) ++ [0]).length = strlen src + 1 := by
    simp [strlen]
  have h0 : toInt32 (strlen src : Int) = strlen src :=
    toInt32_of_range _ (by omega) (by omega)
  have h1 : toInt32 ((L : Int) + strlen src) = (L : Int) + strlen src :=
    toInt32_of_range _ (by omega) (by omega)
  have h2 : toInt32 (s.m_nWriteBufferSize : Int) = s.m_nWriteBufferSize :=
    toInt32_of_range _ (by omega) (by omega)
  have hcopy := memcpy_inside buf (src.takeWhile (fun c => c != 0) ++ [0]) L (by omega)
  have hcast : ((src.takeWhile (fun c => c != 0) ++ [0]).length : Int)
      = (strlen src : Int) + 1 := by
    rw [hmid]; push_cast; rfl
  rw [hcast] at hcopy
  unfold WriteString
  rw [if_neg hopen]
  simp only [hlen, h0, h1, h2]
  rw [if_neg (not_not.mpr (by omega)), if_neg (by omega)]
  simp only [hbuf]
  unfold strcpy
  simp only [hcopy]

/-- C11: a string `Write` (the overload for a NUL-terminated string) on an
open session whose queue has `length >= 0` bytes and whose buffer has
`capacity` bytes, with a non-empty string that passes the capacity check
`length + strlen (Buffer) < capacity`: every index the copy writes, the
index `length + strlen (Buffer)` of the terminating NUL included, lies in
`[0, capacity)`; afterwards the queue length is `length + strlen (Buffer)`
and the first `length` bytes of the buffer are unchanged. The copy puts the
bytes of the string and the NUL at the indices it writes and changes no
other byte. The sizes are in the range of `int`. -/
theorem WriteString_copy_in_bounds (s : Session) (buf src : List Nat) (length : Nat)
    (hopen : IsOpen s = true) (hbuf : s.m_szWriteBuffer = some buf)
    (hsize : buf.length = s.m_nWriteBufferSize)
    (hlen : s.m_nWriteSize = (length : Int))
    (hne : 0 < strlen src)
    (hcap : s.m_nWriteBufferSize < 2147483648)
    (hcheck : length + strlen src < s.m_nWriteBufferSize) :
    (∀ i ∈ strcpyWrites s.m_nWriteSize src, 0 ≤ i ∧ i < (s.m_nWriteBufferSize : Int))
    ∧ ((length : Int) + strlen src) ∈ strcpyWrites s.m_nWriteSize src
    ∧ (WriteString s (some src)).1 = ttlOf s.m_dcb ((length : Int) + strlen src)
    ∧ (WriteString s (some src)).2.m_nWriteSize = (length : Int) + strlen src
    ∧ ∃ buf1, (WriteString s (some src)).2.m_szWriteBuffer = some buf1
        ∧ buf1.length = s.m_nWriteBufferSize
        ∧ buf1.take length = buf.take length
        ∧ (∀ k, k < strlen src → buf1[length + k]? = src[k]?)
        ∧ buf1[length + strlen src]? = some 0
        ∧ (∀ j : Nat, (j : Int) ∉ strcpyWrites s.m_nWriteSize src → buf1[j]? = buf[j]?) := by
  have ho := isOpen_handle s hopen
  have hmid : (src.takeWhile (fun c => c != 0) ++ [0]).length = strlen src + 1 := by
    simp [strlen]
  have hin : length + (src.takeWhile (fun c => c != 0) ++ [0]).length ≤ buf.length := by
    omega
  rw [WriteString_copies s buf src length ho hbuf hsize hlen hne hcap hcheck]
  refine ⟨?_, ?_, rfl, rfl, _, rfl, ?_, ?_, ?_, ?_, ?_⟩
  · intro i hi
    obtain ⟨k, hk, rfl⟩ := (mem_strcpyWrites _ _ _).mp hi
    rw [hlen]
    constructor <;> omega
  · rw [hlen]
    exact (mem_strcpyWrites _ _ _).mpr ⟨strlen src, le_refl _, rfl⟩
  · rw [overwrite_length buf _ length hin, hsize]
  · exact overwrite_take buf _ _ length (by omega)
  · intro k hk
    rw [overwrite_inside buf _ length k hin (by omega)]
    rw [List.getElem?_append_left (by unfold strlen at hk; exact hk)]
    exact takeWhile_getElem? _ src k (by unfold strlen at hk; exact hk)
  · rw [overwrite_inside buf _ length (strlen src) hin (by omega)]
    rw [List.getElem?_append_right (by unfold strlen; exact le_refl _)]
    simp [strlen]
  · intro j hj
    apply overwrite_outside buf _ length j hin
    rw [hmid]
    by_contra hcon
    apply hj
    rw [hlen]
    exact (mem_strcpyWrites _ _ _).mpr ⟨j - length, by omega, by omega⟩

/-- C11, witness: on a buffer of 4 bytes with an empty queue the string
`ABC` passes the check `0 + 3 < 4`; the copy writes the indices 0 to 3, the
NUL at index 3, the last byte of the buffer, and the queue length becomes
3. -/
theorem WriteString_copy_in_bounds_witness :
    strcpyWrites (openedSession ONESTOPBIT 4).m_nWriteSize [65, 66, 67, 0] = [0, 1, 2, 3]
    ∧ ((0 : Int) ≤ 3 ∧ (3 : Int) < ((openedSession ONESTOPBIT 4).m_nWriteBufferSize : Int))
    ∧ (WriteString (openedSession ONESTOPBIT 4) (some [65, 66, 67, 0])).2.m_nWriteSize = 3
    ∧ (WriteString (openedSession ONESTOPBIT 4) (some [65, 66, 67, 0])).2.m_szWriteBuffer
        = some [65, 66, 67, 0] :=
  ⟨by decide,
   (WriteString_copy_in_bounds (openedSession ONESTOPBIT 4) [0, 0, 0, 0] [65, 66, 67, 0] 0
      rfl rfl rfl rfl (by decide) (by decide) (by decide)).1 3
     (WriteString_copy_in_bounds (openedSession ONESTOPBIT 4) [0, 0, 0, 0] [65, 66, 67, 0] 0
      rfl rfl rfl rfl (by decide) (by decide) (by decide)).2.1,
   (WriteString_copy_in_bounds (openedSession ONESTOPBIT 4) [0, 0, 0, 0] [65, 66, 67, 0] 0
      rfl rfl rfl rfl (by decide) (by decide) (by decide)).2.2.2.1,
   rfl⟩

/-! ## The allocated size of the write buffer -/

theorem memcpy_length (dst src d : List Nat) (off n : Int) (h : memcpy dst off src n = some d) :
    d.length = dst.length := by
  unfold memcpy at h
  split at h
  · rename_i hc
    obtain ⟨h0, h1, h2, h3⟩ := hc
    simp only [Option.some.injEq] at h
    subst h
    simp only [List.length_append, List.length_take, List.length_drop]
    omega
  · simp at h

theorem Close_bufferSized (s : Session) : bufferSized (Close s) := by
  intro buf h
  rw [(Close_released s).2.1] at h
  simp at h

theorem Write_bufferSized (s : Session) (Buffer : Option (List Nat)) (nSize : Int)
    (h : bufferSized s) : bufferSized (Write s Buffer nSize).2 := by
  unfold Write
  simp only []
  repeat' split
  all_goals first
    | exact h
    | (rename_i d0 hd _ dst1 hm
       intro buf hb
       simp only [Option.some.injEq] at hb
       subst hb
       rw [memcpy_length _ _ _ _ _ hm]
       exact h d0 hd)

theorem WriteString_bufferSized (s : Session) (Buffer : Option (List Nat))
    (h : bufferSized s) : bufferSized (WriteString s Buffer).2 := by
  unfold WriteString
  simp only []
  repeat' split
  all_goals first
    | exact h
    | (rename_i d0 hd _ dst1 hm
       intro buf hb
       simp only [Option.some.injEq] at hb
       subst hb
       try unfold strcpy at hm
       rw [memcpy_length _ _ _ _ _ hm]
       exact h d0 hd)

theorem Open_start_buffer (e : OpenEnv) (s : Session) :
    (Open_start e s).port.m_szWriteBuffer = s.m_szWriteBuffer
    ∧ (Open_start e s).port.m_nWriteBufferSize = s.m_nWriteBufferSize := by
  unfold Open_start Open_fail
  simp only []
  repeat' split
  all_goals exact ⟨rfl, rfl⟩

theorem Open_configure_bufferSized (a : OpenArgs) (e : OpenEnv) (s : Session) :
    bufferSized (Open_configure a e s).port := by
  unfold Open_configure
  simp only []
  repeat' split
  all_goals
    intro buf hb
    try rw [Open_fail_port] at hb ⊢
    try rw [(Open_start_buffer _ _).1] at hb
    try rw [(Open_start_buffer _ _).2]
    first
      | (simp at hb; done)
      | (simp only [Option.some.injEq] at hb; subst hb; simp)

theorem Open_bufferSized (a : OpenArgs) (e : OpenEnv) (s : Session) :
    bufferSized (Open a e s).port := by
  unfold Open
  simp only []
  repeat' split
  all_goals first
    | exact Close_bufferSized _
    | exact Open_configure_bufferSized a e _

theorem WriteChar_buffer (wr : WriteResult) (w : World) :
    (WriteChar wr w).1.port.m_szWriteBuffer = w.port.m_szWriteBuffer
    ∧ (WriteChar wr w).1.port.m_nWriteBufferSize = w.port.m_nWriteBufferSize := by
  unfold WriteChar WriteChar_unlocked WriteChar_locked
  simp only []
  repeat' split
  all_goals exact ⟨rfl, rfl⟩

theorem CommThread_pass_buffer (wr : WriteResult) (w : World) :
    (CommThread_pass wr w).1.port.m_szWriteBuffer = w.port.m_szWriteBuffer
    ∧ (CommThread_pass wr w).1.port.m_nWriteBufferSize = w.port.m_nWriteBufferSize := by
  unfold CommThread_pass
  split
  · exact ⟨rfl, rfl⟩
  · split
    · exact ⟨rfl, rfl⟩
    · split
      · exact ⟨rfl, rfl⟩
      · split
        · have h1 := WriteChar_buffer wr w
          rcases hw : WriteChar wr w with ⟨w1, sent⟩
          rw [hw] at h1
          simp only at h1 ⊢
          split
          · exact h1
          · have h2 : (CommThread_sent w1 sent).1.port = w1.port := by
              unfold CommThread_sent; split <;> rfl
            rcases hs : CommThread_sent w1 sent with ⟨w2, b⟩
            rw [hs] at h2
            simp only at h2
            cases b
            · show w2.port.m_szWriteBuffer = _ ∧ w2.port.m_nWriteBufferSize = _
              rw [h2]; exact h1
            · obtain ⟨_, _, -, -, -, -, -, h6⟩ := ReceiveChar_spec w2
              simp only
              rw [h6, h2]; exact h1
        · obtain ⟨_, _, -, -, -, -, -, h6⟩ := ReceiveChar_spec w
          simp only
          rw [h6]
          exact ⟨rfl, rfl⟩

theorem step_bufferSized (w : World) (act : Action) (h : bufferSized w.port) :
    bufferSized (step w act).port := by
  unfold step
  split
  · exact h
  · cases act with
    | callOpen a e => exact Open_bufferSized a e w.port
    | callWrite Buffer nSize =>
      have := Write_bufferSized w.port Buffer nSize h
      simp only
      split <;> (rename_i heq; rw [heq] at this; exact this)
    | callWriteString Buffer =>
      have := WriteString_bufferSized w.port Buffer h
      simp only
      split <;> (rename_i heq; rw [heq] at this; exact this)
    | workerPass wr =>
      intro buf hb
      simp only at hb ⊢
      rw [(CommThread_pass_buffer wr w).1] at hb
      rw [(CommThread_pass_buffer wr w).2]
      exact h buf hb
    | callClose => exact Close_bufferSized w.port

/-- In every state reached from a freshly constructed session by `Open`,
`Write`, worker passes and `Close`, the write buffer, when allocated, has
`m_nWriteBufferSize` bytes. -/
theorem run_bufferSized (raw : Session) (reads : List ReadResult) (acts : List Action) :
    bufferSized (run (freshWorld raw reads) acts).port := by
  have gen : ∀ (acts : List Action) (w : World), bufferSized w.port →
      bufferSized (run w acts).port := by
    intro acts
    induction acts with
    | nil => intro w h; exact h
    | cons act rest ih => intro w h; exact ih (step w act) (step_bufferSized w act h)
  apply gen acts
  intro buf hb
  simp [freshWorld, CSerialPort_ctor] at hb

end CSerialPort
